import Mathlib

/-!
Verification of the tasks-cli recurrence engine and task store.

This file gives a shallow embedding of the program's core:
the calendar arithmetic used by `utils.ts` (dates are `YYYY-MM-DD`
strings in the source, modelled here as year/month/day triples, with
JS `Date` millisecond arithmetic modelled by a days-since-epoch
function), the task and template rows of the SQLite store
(`db.ts`), the task mutations of `tasks.ts`, the bucket queries of
`queries.ts`, and the generation pipeline of `generation.ts`.
Theorems C1 to C10 settle the frozen claims about this code.
-/

namespace TasksCli

/-- Calendar date, the model of a `YYYY-MM-DD` string. -/
structure Date where
  year : Int
  month : Int
  day : Int
deriving DecidableEq, Repr

/-- Proleptic Gregorian leap-year rule, as implemented by the JS `Date`
runtime that the source relies on for all date arithmetic. -/
def isLeap (y : Int) : Bool :=
  (y % 4 == 0 && y % 100 != 0) || y % 400 == 0

/-- Number of days in a month of the proleptic Gregorian calendar. -/
def daysInMonth (y m : Int) : Int :=
  if m = 1 then 31 else if m = 2 then (if isLeap y then 29 else 28)
  else if m = 3 then 31 else if m = 4 then 30 else if m = 5 then 31
  else if m = 6 then 30 else if m = 7 then 31 else if m = 8 then 31
  else if m = 9 then 30 else if m = 10 then 31 else if m = 11 then 30 else 31

/-- Day-of-year offset of the first day of a month counted from March 1
(the classical shifted-year encoding used by civil-from-days algorithms). -/
def marchDoy (m : Int) : Int :=
  if m = 3 then 0 else if m = 4 then 31 else if m = 5 then 61 else if m = 6 then 92
  else if m = 7 then 122 else if m = 8 then 153 else if m = 9 then 184 else if m = 10 then 214
  else if m = 11 then 245 else if m = 12 then 275 else if m = 1 then 306 else 337

/-- Days contributed by all shifted years up to and including shifted year `y`,
relative to the era origin. -/
def yearBlock (y : Int) : Int :=
  (y / 400) * 146097 + (y % 400) * 365 + (y % 400) / 4 - (y % 400) / 100

/-- Days since 1970-01-01 of a calendar date.  This models the quantity
`new Date(dateStr + "T00:00:00").getTime() / 86400000` that the source
uses for all whole-day arithmetic (the source runs the reference
configuration, timezone UTC, so midnight instants are whole days apart). -/
def toDays (d : Date) : Int :=
  yearBlock (if d.month ≤ 2 then d.year - 1 else d.year) + marchDoy d.month + d.day - 1 - 719468

/-- Day-of-week as returned by JS `Date.getDay`: 0 = Sunday, ..., 6 = Saturday
(1970-01-01 was a Thursday, day number 4). -/
def weekday (d : Date) : Int :=
  (toDays d + 4) % 7

/-- A structurally valid calendar date (month 1..12, day within the month). -/
def Date.validB (d : Date) : Bool :=
  1 ≤ d.month && d.month ≤ 12 && 1 ≤ d.day && d.day ≤ daysInMonth d.year d.month

/-- Successor date.  Models the JS idiom `current.setDate(current.getDate() + 1)`
used by `getDateRange` in `generation.ts` to walk the scan window: JS `Date`
rolls the month and year exactly like this for valid dates. -/
def nextDay (d : Date) : Date :=
  if d.day < daysInMonth d.year d.month then ⟨d.year, d.month, d.day + 1⟩
  else if d.month < 12 then ⟨d.year, d.month + 1, 1⟩
  else ⟨d.year + 1, 1, 1⟩

/-- Calendar addition of `n` days, the model of `daysFromNow`. -/
def addDaysN (d : Date) (n : Nat) : Date :=
  nextDay^[n] d

theorem isLeap_iff (y : Int) : isLeap y = true ↔ ((y % 4 = 0 ∧ y % 100 ≠ 0) ∨ y % 400 = 0) := by
  simp [isLeap]

theorem yearBlock_succ (y : Int) :
    yearBlock y - yearBlock (y - 1) = 365 + (if isLeap y then 1 else 0) := by
  have hr1 : 0 ≤ y % 400 := Int.emod_nonneg y (by norm_num)
  have hr2 : y % 400 < 400 := Int.emod_lt_of_pos y (by norm_num)
  have hli := isLeap_iff y
  by_cases h0 : y % 400 = 0
  · have e1 : (y - 1) / 400 = y / 400 - 1 := by omega
    have e2 : (y - 1) % 400 = 399 := by omega
    have hl : isLeap y = true := hli.mpr (Or.inr h0)
    simp only [yearBlock, e1, e2, h0, hl, if_true]
    omega
  · have e1 : (y - 1) / 400 = y / 400 := by omega
    have e2 : (y - 1) % 400 = y % 400 - 1 := by omega
    simp only [yearBlock, e1, e2]
    by_cases hl : isLeap y = true
    · have hc : (y % 4 = 0 ∧ y % 100 ≠ 0) ∨ y % 400 = 0 := hli.mp hl
      simp only [hl, if_true]
      omega
    · have hc : ¬((y % 4 = 0 ∧ y % 100 ≠ 0) ∨ y % 400 = 0) := fun hh => hl (hli.mpr hh)
      rw [Bool.not_eq_true] at hl
      simp only [hl, Bool.false_eq_true, if_false]
      omega

theorem toDays_nextDay (d : Date) (h : d.validB = true) :
    toDays (nextDay d) = toDays d + 1 := by
  have hv : 1 ≤ d.month ∧ d.month ≤ 12 ∧ 1 ≤ d.day ∧ d.day ≤ daysInMonth d.year d.month := by
    simp only [Date.validB, Bool.and_eq_true, decide_eq_true_eq] at h
    exact ⟨h.1.1.1, h.1.1.2, h.1.2, h.2⟩
  obtain ⟨hm1, hm12, hd1, hdim⟩ := hv
  rw [nextDay]
  by_cases hlt : d.day < daysInMonth d.year d.month
  · rw [if_pos hlt]
    simp only [toDays]
    omega
  · rw [if_neg hlt]
    have hdeq : d.day = daysInMonth d.year d.month := by omega
    by_cases hm : d.month < 12
    · rw [if_pos hm]
      have h11 : d.month ≤ 11 := by omega
      obtain ⟨y, m, dy⟩ := d
      simp only at hm1 h11 hdeq ⊢
      interval_cases m <;>
        first
        | (simp only [toDays, marchDoy, daysInMonth, isLeap] at hdeq ⊢; norm_num at hdeq ⊢; omega)
        | (have hs := yearBlock_succ y
           simp only [toDays, marchDoy, daysInMonth] at hdeq ⊢
           norm_num at hdeq ⊢
           by_cases hl : isLeap y = true
           · rw [if_pos hl] at hdeq; rw [if_pos hl] at hs; omega
           · rw [if_neg hl] at hdeq; rw [if_neg hl] at hs; omega)
    · rw [if_neg hm]
      have hm12e : d.month = 12 := by omega
      obtain ⟨y, m, dy⟩ := d
      simp only at hm12e hdeq ⊢
      subst hm12e
      simp only [toDays, marchDoy, daysInMonth] at hdeq ⊢
      norm_num at hdeq ⊢
      omega

theorem daysInMonth_pos (y m : Int) : 1 ≤ daysInMonth y m := by
  unfold daysInMonth
  repeat' split
  all_goals omega

theorem nextDay_validB (d : Date) (h : d.validB = true) : (nextDay d).validB = true := by
  simp only [Date.validB, Bool.and_eq_true, decide_eq_true_eq] at h
  obtain ⟨⟨⟨hm1, hm12⟩, hd1⟩, hdim⟩ := h
  rw [nextDay]
  by_cases hlt : d.day < daysInMonth d.year d.month
  · rw [if_pos hlt]
    simp only [Date.validB, Bool.and_eq_true, decide_eq_true_eq]
    exact ⟨⟨⟨hm1, hm12⟩, by omega⟩, by omega⟩
  · rw [if_neg hlt]
    by_cases hm : d.month < 12
    · rw [if_pos hm]
      simp only [Date.validB, Bool.and_eq_true, decide_eq_true_eq]
      exact ⟨⟨⟨by omega, by omega⟩, by omega⟩, daysInMonth_pos _ _⟩
    · rw [if_neg hm]
      simp only [Date.validB, Bool.and_eq_true, decide_eq_true_eq]
      refine ⟨⟨⟨by omega, by omega⟩, by omega⟩, ?_⟩
      simp [daysInMonth]

theorem addDaysN_validB (d : Date) (h : d.validB = true) (n : Nat) :
    (addDaysN d n).validB = true := by
  induction n with
  | zero => simpa [addDaysN] using h
  | succ k ih =>
      rw [show addDaysN d (k + 1) = nextDay (addDaysN d k) from Function.iterate_succ_apply' nextDay k d]
      exact nextDay_validB _ ih

theorem toDays_addDaysN (d : Date) (h : d.validB = true) (n : Nat) :
    toDays (addDaysN d n) = toDays d + n := by
  induction n with
  | zero => simp [addDaysN]
  | succ k ih =>
      rw [show addDaysN d (k + 1) = nextDay (addDaysN d k) from Function.iterate_succ_apply' nextDay k d]
      rw [toDays_nextDay _ (addDaysN_validB d h k), ih]
      push_cast
      ring

/-- ASCII lower-casing of one character, the effect of JS `toLowerCase` and of
SQLite `LIKE` case folding on the ASCII strings this program stores. -/
def asciiLowerChar (c : Char) : Char :=
  if 65 ≤ c.toNat ∧ c.toNat ≤ 90 then Char.ofNat (c.toNat + 32) else c

/-- Models JS `String.prototype.toLowerCase` on the ASCII data this program handles. -/
def asciiLower (s : String) : String :=
  String.mk (s.data.map asciiLowerChar)

/-- Split a character list at commas; tail-accumulator form of JS `split(",")`. -/
def splitCommaChars : List Char → List Char → List (List Char)
  | [], acc => [acc.reverse]
  | c :: rest, acc =>
      if c = ',' then acc.reverse :: splitCommaChars rest []
      else splitCommaChars rest (c :: acc)

/-- Join character lists with commas, JS `join(",")`. -/
def joinCommaChars : List (List Char) → List Char
  | [] => []
  | [x] => x
  | x :: y :: rest => x ++ ',' :: joinCommaChars (y :: rest)

/-- Models JS `s.split(",")`. -/
def splitComma (s : String) : List String :=
  (splitCommaChars s.data []).map String.mk

/-- Models JS `l.join(",")`. -/
def joinComma (l : List String) : String :=
  String.mk (joinCommaChars (l.map String.data))

/-- Models `formatTagsForStorage` in utils.ts: `tags.join(",")`. -/
def formatTagsForStorage (tags : List String) : String :=
  joinComma tags

/-- Models `parseTagsFromStorage` in utils.ts:
`if (!stored) return []; return stored.split(",").filter(t => t.length > 0)`.
A NULL column is `none`; the empty string also yields `[]` through the filter,
matching the JS falsy check. -/
def parseTagsFromStorage (stored : Option String) : List String :=
  match stored with
  | none => []
  | some s => (splitComma s).filter (fun t => !t.data.isEmpty)

/-- Strip leading and trailing whitespace from a character list, the effect
of JS `trim` on the ASCII data this program handles. -/
def trimChars (l : List Char) : List Char :=
  ((l.dropWhile Char.isWhitespace).reverse.dropWhile Char.isWhitespace).reverse

/-- Does `pat` occur at the head of `s`. -/
def matchesHere : List Char → List Char → Bool
  | [], _ => true
  | _ :: _, [] => false
  | p :: ps, c :: cs => p == c && matchesHere ps cs

/-- Does `pat` occur anywhere in `s`. -/
def containsPat (pat : List Char) : List Char → Bool
  | [] => matchesHere pat []
  | c :: cs => matchesHere pat (c :: cs) || containsPat pat cs

/-- Models the SQL predicate `field LIKE '%pat%'`: NULL yields false, and
SQLite LIKE is case-insensitive over ASCII, hence the fold on both sides. -/
def sqlLike (field : Option String) (pat : String) : Bool :=
  match field with
  | none => false
  | some s => containsPat (asciiLower pat).data (asciiLower s).data

/-- Models the JS `x || null` idiom applied to an optional string column:
an empty string is falsy and is stored as NULL. -/
def jsStrOrNull (o : Option String) : Option String :=
  match o with
  | some s => if s = "" then none else some s
  | none => none

/-- Models the SQL string comparison `date1 < date2` on zero-padded ISO
`YYYY-MM-DD` strings, which is lexicographic on (year, month, day). -/
def dateLexLt (a b : Date) : Bool :=
  decide (a.year < b.year) ||
    (a.year == b.year &&
      (decide (a.month < b.month) || (a.month == b.month && decide (a.day < b.day))))

theorem toNat_ofNat_small (n : Nat) (h : n < 55296) : (Char.ofNat n).toNat = n := by
  simp [Char.ofNat, Nat.isValidChar, h, Char.toNat, Char.ofNatAux, UInt32.toNat,
    BitVec.toNat_ofNatLt]

theorem asciiLowerChar_not_upper (c : Char) :
    ¬(65 ≤ (asciiLowerChar c).toNat ∧ (asciiLowerChar c).toNat ≤ 90) := by
  unfold asciiLowerChar
  by_cases h : 65 ≤ c.toNat ∧ c.toNat ≤ 90
  · rw [if_pos h]
    rw [toNat_ofNat_small (c.toNat + 32) (by omega)]
    omega
  · rw [if_neg h]
    exact h

theorem asciiLowerChar_idem (c : Char) :
    asciiLowerChar (asciiLowerChar c) = asciiLowerChar c := by
  have := asciiLowerChar_not_upper c
  rw [asciiLowerChar, if_neg this]

theorem splitCommaChars_comma_free :
    ∀ (s acc : List Char), ',' ∉ acc → ∀ p ∈ splitCommaChars s acc, ',' ∉ p := by
  intro s
  induction s with
  | nil =>
      intro acc hacc p hp
      simp only [splitCommaChars, List.mem_singleton] at hp
      subst hp
      simpa using hacc
  | cons c rest ih =>
      intro acc hacc p hp
      rw [splitCommaChars] at hp
      by_cases hc : c = ','
      · rw [if_pos hc] at hp
        rcases List.mem_cons.mp hp with h | h
        · subst h; simpa using hacc
        · exact ih [] (by simp) p h
      · rw [if_neg hc] at hp
        refine ih (c :: acc) ?_ p hp
        simp only [List.mem_cons, not_or]
        exact ⟨fun hh => hc hh.symm, hacc⟩

theorem splitCommaChars_of_no_comma (x : List Char) (hx : ',' ∉ x) :
    ∀ acc, splitCommaChars x acc = [acc.reverse ++ x] := by
  induction x with
  | nil => intro acc; simp [splitCommaChars]
  | cons c cs ih =>
      intro acc
      have hc : ¬(c = ',') := fun h => hx (by simp [h])
      rw [splitCommaChars, if_neg hc, ih (fun h => hx (List.mem_cons_of_mem c h))]
      simp

theorem splitCommaChars_append (x l : List Char) (hx : ',' ∉ x) :
    ∀ acc, splitCommaChars (x ++ ',' :: l) acc = (acc.reverse ++ x) :: splitCommaChars l [] := by
  induction x with
  | nil => intro acc; simp [splitCommaChars]
  | cons c cs ih =>
      intro acc
      have hc : ¬(c = ',') := fun h => hx (by simp [h])
      rw [List.cons_append, splitCommaChars, if_neg hc,
        ih (fun h => hx (List.mem_cons_of_mem c h))]
      simp

theorem split_join_chars (l : List (List Char)) (hl : ∀ p ∈ l, ',' ∉ p) (hne : l ≠ []) :
    splitCommaChars (joinCommaChars l) [] = l := by
  induction l with
  | nil => exact absurd rfl hne
  | cons x rest ih =>
      cases rest with
      | nil =>
          rw [joinCommaChars, splitCommaChars_of_no_comma x (hl x (by simp)) []]
          simp
      | cons y rest2 =>
          rw [joinCommaChars, splitCommaChars_append x _ (hl x (by simp)) []]
          rw [ih (fun p hp => hl p (List.mem_cons_of_mem x hp)) (by simp)]
          simp

theorem string_mk_data (s : String) : String.mk s.data = s := rfl

theorem parse_format (l : List String) (hl : ∀ p ∈ l, ',' ∉ p.data) :
    parseTagsFromStorage (some (formatTagsForStorage l)) = l.filter (fun t => !t.data.isEmpty) := by
  rw [parseTagsFromStorage, formatTagsForStorage, joinComma, splitComma]
  cases l with
  | nil => rfl
  | cons x rest =>
      rw [show (String.mk (joinCommaChars ((x :: rest).map String.data))).data
            = joinCommaChars ((x :: rest).map String.data) from rfl]
      rw [split_join_chars ((x :: rest).map String.data)
        (by
          intro p hp
          rcases List.mem_map.mp hp with ⟨q, hq, rfl⟩
          exact hl q hq)
        (by simp)]
      rw [List.map_map]
      have : (String.mk ∘ String.data) = fun s => s := by
        funext s; rfl
      rw [this, List.map_id']

theorem parse_pieces_comma_free (o : Option String) :
    ∀ p ∈ parseTagsFromStorage o, ',' ∉ p.data := by
  intro p hp
  match o with
  | none => simp [parseTagsFromStorage] at hp
  | some s =>
      rw [parseTagsFromStorage] at hp
      have hp2 := List.mem_of_mem_filter hp
      rw [splitComma] at hp2
      rcases List.mem_map.mp hp2 with ⟨q, hq, rfl⟩
      exact splitCommaChars_comma_free s.data [] (by simp) q hq

theorem parse_pieces_ne_nil (o : Option String) :
    ∀ p ∈ parseTagsFromStorage o, p.data ≠ [] := by
  intro p hp
  match o with
  | none => simp [parseTagsFromStorage] at hp
  | some s =>
      rw [parseTagsFromStorage] at hp
      have := List.of_mem_filter hp
      simpa using this

/-- Recurrence shape of a template, the `recur_type` column. -/
inductive RecurType where
  | daily
  | weekly
  | monthly
  | yearly
deriving DecidableEq, Repr

/-- A row of the `tasks` table (db.ts). -/
structure Task where
  id : Nat
  title : String
  description : Option String
  due_date : Option Date
  due_time : Option String
  tags : Option String
  project : Option String
  priority : Int
  reminded_at : Option String
  created_at : String
  updated_at : String
  completed_at : Option String
  recurring_id : Option Nat
deriving DecidableEq, Repr

/-- A row of the `recurring_templates` table (db.ts / recurring.ts). -/
structure Template where
  id : Nat
  title : String
  description : Option String
  due_time : Option String
  tags : Option String
  project : Option String
  priority : Int
  recur_type : RecurType
  recur_interval : Int
  recur_days : Option String
  recur_day_of_month : Option Int
  start_date : Date
  end_date : Option Date
  last_generated : Option Date
  enabled : Int
  created_at : String
  updated_at : String
deriving DecidableEq, Repr

/-- The SQLite database: both tables plus the AUTOINCREMENT counter for task ids. -/
structure Store where
  tasks : List Task
  templates : List Template
  nextTaskId : Nat
deriving DecidableEq, Repr

/-- Caller input of `createTask` (tasks.ts `CreateTaskInput`). -/
structure CreateTaskInput where
  title : String
  description : Option String := none
  due_date : Option Date := none
  due_time : Option String := none
  tags : Option (List String) := none
  project : Option String := none
  priority : Option Int := none
deriving DecidableEq, Repr

/-- Models `SELECT * FROM tasks WHERE id = ?` (first row, tasks.ts getTaskById). -/
def getTaskById (s : Store) (id : Nat) : Option Task :=
  s.tasks.find? (fun t => t.id == id)

/-- Models `SELECT * FROM recurring_templates WHERE id = ?` (recurring.ts getTemplateById). -/
def getTemplateById (s : Store) (id : Nat) : Option Template :=
  s.templates.find? (fun t => t.id == id)

/-- Models tasks.ts `createTask`: INSERT with the JS falsy defaults
(`input.x || null`, `input.priority || 0`, tags joined when the array is
present) followed by `getTaskById(lastInsertRowid)`. -/
def createTask (s : Store) (input : CreateTaskInput) (now : String) : Store × Task :=
  let row : Task :=
    { id := s.nextTaskId
      title := input.title
      description := jsStrOrNull input.description
      due_date := input.due_date
      due_time := jsStrOrNull input.due_time
      tags := input.tags.map formatTagsForStorage
      project := jsStrOrNull input.project
      priority := input.priority.getD 0
      reminded_at := none
      created_at := now
      updated_at := now
      completed_at := none
      recurring_id := none }
  ({ s with tasks := s.tasks ++ [row], nextTaskId := s.nextTaskId + 1 }, row)

/-- Models tasks.ts `completeTask`:
`UPDATE tasks SET completed_at = now, updated_at = now WHERE id = ? AND completed_at IS NULL`
then `getTaskById(id)`. -/
def completeTask (s : Store) (id : Nat) (now : String) : Store × Option Task :=
  let tasks := s.tasks.map (fun t =>
    if t.id = id ∧ t.completed_at = none
    then { t with completed_at := some now, updated_at := now }
    else t)
  let s2 := { s with tasks := tasks }
  (s2, getTaskById s2 id)

/-- Models tasks.ts `deleteTask`: `DELETE FROM tasks WHERE id = ?`,
returning `changes > 0`. -/
def deleteTask (s : Store) (id : Nat) : Store × Bool :=
  let remaining := s.tasks.filter (fun t => !(t.id == id))
  ({ s with tasks := remaining }, decide (remaining.length < s.tasks.length))

/-- Models generation.ts `skipTask`: `DELETE FROM tasks WHERE id = ?`,
returning `changes > 0`. -/
def skipTask (s : Store) (id : Nat) : Store × Bool :=
  let remaining := s.tasks.filter (fun t => !(t.id == id))
  ({ s with tasks := remaining }, decide (remaining.length < s.tasks.length))

/-- Shared shape of the three bucket-moving updates in tasks.ts: set
`due_date`/`due_time` to NULL, replace the tags column, reset `reminded_at`,
touch `updated_at`, for every row with the given id, then re-select. -/
def applyUndatedUpdate (s : Store) (id : Nat) (newTags : String) (now : String) :
    Store × Option Task :=
  let tasks := s.tasks.map (fun t =>
    if t.id = id
    then { t with due_date := none, due_time := none, tags := some newTags,
                  reminded_at := none, updated_at := now }
    else t)
  let s2 := { s with tasks := tasks }
  (s2, getTaskById s2 id)

/-- Models tasks.ts `moveToSoon`: drop `someday`, add `soon` if missing,
clear the due date. -/
def moveToSoon (s : Store) (id : Nat) (now : String) : Store × Option Task :=
  match getTaskById s id with
  | none => (s, none)
  | some task =>
      let tags0 := (parseTagsFromStorage task.tags).filter (fun t => !(t == "someday"))
      let tags1 := if tags0.contains "soon" then tags0 else tags0 ++ ["soon"]
      applyUndatedUpdate s id (formatTagsForStorage tags1) now

/-- Models tasks.ts `moveToSomeday`: drop `soon`, add `someday` if missing,
clear the due date. -/
def moveToSomeday (s : Store) (id : Nat) (now : String) : Store × Option Task :=
  match getTaskById s id with
  | none => (s, none)
  | some task =>
      let tags0 := (parseTagsFromStorage task.tags).filter (fun t => !(t == "soon"))
      let tags1 := if tags0.contains "someday" then tags0 else tags0 ++ ["someday"]
      applyUndatedUpdate s id (formatTagsForStorage tags1) now

/-- Models tasks.ts `moveToInbox`: drop both reserved tags, clear the due date. -/
def moveToInbox (s : Store) (id : Nat) (now : String) : Store × Option Task :=
  match getTaskById s id with
  | none => (s, none)
  | some task =>
      let tags1 := (parseTagsFromStorage task.tags).filter
        (fun t => !(t == "soon") && !(t == "someday"))
      applyUndatedUpdate s id (formatTagsForStorage tags1) now

/-- The UPDATE half of tasks.ts `addTagsToTask`: store the new tags column
and touch `updated_at` for every row with the id, then re-select. -/
def applyTagsUpdate (s : Store) (id : Nat) (newStr now : String) : Store × Option Task :=
  let tasks := s.tasks.map (fun t =>
    if t.id = id then { t with tags := some newStr, updated_at := now } else t)
  let s2 := { s with tasks := tasks }
  (s2, getTaskById s2 id)

/-- Models tasks.ts `addTagsToTask`: lower-case each new tag, append the ones
not already present, store the joined list, for every row with the id. -/
def addTagsToTask (s : Store) (id : Nat) (newTags : List String) (now : String) :
    Store × Option Task :=
  match getTaskById s id with
  | none => (s, none)
  | some task =>
      let tags1 := newTags.foldl (fun acc t =>
        if acc.contains (asciiLower t) then acc else acc ++ [asciiLower t])
        (parseTagsFromStorage task.tags)
      applyTagsUpdate s id (formatTagsForStorage tags1) now

/-- Models queries.ts `getAllActive`'s WHERE clause (sorting is irrelevant
to the claims, which are about membership). -/
def activeTasks (s : Store) : List Task :=
  s.tasks.filter (fun t => t.completed_at == none)

/-- Models queries.ts `getByDate`: `due_date = ? AND completed_at IS NULL`. -/
def getByDate (s : Store) (date : Date) : List Task :=
  s.tasks.filter (fun t => t.due_date == some date && t.completed_at == none)

/-- Models queries.ts `getOverdue`: `due_date < today AND completed_at IS NULL`;
a NULL `due_date` fails the SQL comparison. -/
def getOverdue (s : Store) (todayD : Date) : List Task :=
  s.tasks.filter (fun t =>
    (match t.due_date with
     | some d => dateLexLt d todayD
     | none => false) && t.completed_at == none)

/-- Models queries.ts `getSoon`:
`due_date IS NULL AND completed_at IS NULL AND tags LIKE '%soon%'`. -/
def getSoon (s : Store) : List Task :=
  s.tasks.filter (fun t =>
    t.due_date == none && t.completed_at == none && sqlLike t.tags "soon")

/-- Models queries.ts `getSomeday`:
`due_date IS NULL AND completed_at IS NULL AND tags LIKE '%someday%'`. -/
def getSomeday (s : Store) : List Task :=
  s.tasks.filter (fun t =>
    t.due_date == none && t.completed_at == none && sqlLike t.tags "someday")

/-- Models queries.ts `getInbox`: `due_date IS NULL AND completed_at IS NULL
AND (tags IS NULL OR (tags NOT LIKE '%soon%' AND tags NOT LIKE '%someday%'))`. -/
def getInbox (s : Store) : List Task :=
  s.tasks.filter (fun t =>
    t.due_date == none && t.completed_at == none &&
      (t.tags == none || (!sqlLike t.tags "soon" && !sqlLike t.tags "someday")))

/-- The DAY_MAP lookup of generation.ts (undefined becomes `none`). -/
def dayMap (s : String) : Option Int :=
  if s = "sun" ∨ s = "sunday" then some 0
  else if s = "mon" ∨ s = "monday" then some 1
  else if s = "tue" ∨ s = "tuesday" then some 2
  else if s = "wed" ∨ s = "wednesday" then some 3
  else if s = "thu" ∨ s = "thursday" then some 4
  else if s = "fri" ∨ s = "friday" then some 5
  else if s = "sat" ∨ s = "saturday" then some 6
  else none

/-- Models the JS test `x % n === 0`: division by zero gives NaN, which
compares unequal to 0; JS `%` truncates like `Int.tmod`. -/
def jsModZero (a b : Int) : Bool :=
  if b = 0 then false else a.tmod b == 0

/-- Models `Math.floor(a / b)` on integers, floor division. -/
def jsFloorDiv (a b : Int) : Int :=
  Int.fdiv a b

/-- Signed month distance used by the monthly case:
`(d.getFullYear() - start.getFullYear()) * 12 + (d.getMonth() - start.getMonth())`. -/
def monthsDiff (start d : Date) : Int :=
  (d.year - start.year) * 12 + (d.month - start.month)

/-- The JS-falsy target day of the monthly case:
`template.recur_day_of_month || startDate.getDate()` (NULL and 0 both fall
back to the start date's day-of-month). -/
def monthlyTargetDay (template : Template) : Int :=
  match template.recur_day_of_month with
  | some k => if k = 0 then template.start_date.day else k
  | none => template.start_date.day

/-- Models generation.ts `dateMatchesPattern`.  JS `Date` comparison of two
midnight instants is comparison of their day numbers; `daysDiff` is the exact
whole-day difference of two midnights. -/
def dateMatchesPattern (date : Date) (template : Template) : Bool :=
  if toDays date < toDays template.start_date then false
  else if (match template.end_date with
           | some e => decide (toDays e < toDays date)
           | none => false) then false
  else
    match template.recur_type with
    | .daily =>
        jsModZero (toDays date - toDays template.start_date) template.recur_interval
    | .weekly =>
        let dayOfWeek := weekday date
        let daysOk :=
          match template.recur_days with
          | none => true
          | some ds =>
              if ds = "" then true
              else ((splitComma ds).map (fun day =>
                  dayMap (String.mk (trimChars (asciiLower day).data)))).contains
                (some dayOfWeek)
        daysOk &&
          (decide (template.recur_interval ≤ 1) ||
            (jsFloorDiv (toDays date - toDays template.start_date) 7).tmod
                template.recur_interval == 0)
    | .monthly =>
        date.day == monthlyTargetDay template &&
          (decide (template.recur_interval ≤ 1) ||
            (monthsDiff template.start_date date).tmod template.recur_interval == 0)
    | .yearly =>
        (date.month == template.start_date.month && date.day == template.start_date.day) &&
          (decide (template.recur_interval ≤ 1) ||
            (date.year - template.start_date.year).tmod template.recur_interval == 0)

/-- Models generation.ts `taskExistsForDate`:
`SELECT COUNT(*) FROM tasks WHERE recurring_id = ? AND due_date = ?` is positive. -/
def taskExistsForDate (s : Store) (templateId : Nat) (date : Date) : Bool :=
  s.tasks.any (fun t => t.recurring_id == some templateId && t.due_date == some date)

/-- The row inserted by generation.ts `createTaskFromTemplate`: the template
payload stamped onto the given due date, with the template reference set. -/
def templateRow (newId : Nat) (template : Template) (date : Date) (now : String) : Task :=
  { id := newId
    title := template.title
    description := template.description
    due_date := some date
    due_time := template.due_time
    tags := template.tags
    project := template.project
    priority := template.priority
    reminded_at := none
    created_at := now
    updated_at := now
    completed_at := none
    recurring_id := some template.id }

/-- Models generation.ts `createTaskFromTemplate`: INSERT the payload copied
from the template with the given due date, then re-select the inserted row. -/
def createTaskFromTemplate (s : Store) (template : Template) (date : Date) (now : String) :
    Store × Task :=
  let row := templateRow s.nextTaskId template date now
  ({ s with tasks := s.tasks ++ [row], nextTaskId := s.nextTaskId + 1 }, row)

/-- Models recurring.ts `updateLastGenerated`:
`UPDATE recurring_templates SET last_generated = ?, updated_at = now WHERE id = ?`. -/
def updateLastGenerated (s : Store) (id : Nat) (date : Date) (now : String) : Store :=
  { s with templates := s.templates.map (fun t =>
      if t.id = id then { t with last_generated := some date, updated_at := now } else t) }

/-- The scan window of `generateTasksForTemplate`: `getDateRange(today(),
daysFromNow(days - 1))` walks one calendar day at a time from today through
today plus `days - 1`, producing `days` consecutive dates (none if `days = 0`,
when the end bound falls before the start). -/
def genWindow (todayD : Date) (days : Nat) : List Date :=
  (List.range days).map (fun i => addDaysN todayD i)

/-- One iteration of the generation loop body: create the task when the
pattern matches and no `(template, date)` occurrence exists yet, tracking the
created list and the last created date. -/
def genStep (templateId : Nat) (template : Template) (now : String)
    (acc : Store × List Task × Option Date) (date : Date) : Store × List Task × Option Date :=
  if dateMatchesPattern date template && !taskExistsForDate acc.1 templateId date then
    let ins := createTaskFromTemplate acc.1 template date now
    (ins.1, acc.2.1 ++ [ins.2], some date)
  else acc

/-- Result of a generation call: the list of created tasks and the new store. -/
structure GenResult where
  created : List Task
  store : Store
deriving DecidableEq, Repr

/-- Models generation.ts `generateTasksForTemplate`: no-op for an unknown or
disabled template; otherwise scan the window, create missing occurrences, and
record the advisory `last_generated` marker when anything was created. -/
def generateTasksForTemplate (s : Store) (templateId : Nat) (days : Nat) (todayD : Date)
    (now : String) : GenResult :=
  match getTemplateById s templateId with
  | none => ⟨[], s⟩
  | some template =>
      if template.enabled = 0 then ⟨[], s⟩
      else
        let r := (genWindow todayD days).foldl (genStep templateId template now) (s, [], none)
        match r.2.2 with
        | some d => ⟨r.2.1, updateLastGenerated r.1 templateId d now⟩
        | none => ⟨r.2.1, r.1⟩

theorem map_id_of_mem {α : Type} (l : List α) (f : α → α) (h : ∀ x ∈ l, f x = x) :
    l.map f = l := by
  induction l with
  | nil => rfl
  | cons x rest ih =>
      rw [List.map_cons, h x (by simp), ih (fun y hy => h y (List.mem_cons_of_mem x hy))]

theorem filter_length_lt_iff {α : Type} (l : List α) (p : α → Bool) :
    (l.filter p).length < l.length ↔ ∃ x ∈ l, p x = false := by
  induction l with
  | nil => simp
  | cons x rest ih =>
      by_cases hx : p x
      · rw [List.filter_cons_of_pos hx]
        simp only [List.length_cons, Nat.add_lt_add_iff_right, ih, List.mem_cons]
        constructor
        · rintro ⟨y, hy, hpy⟩; exact ⟨y, Or.inr hy, hpy⟩
        · rintro ⟨y, hy | hy, hpy⟩
          · subst hy; rw [hx] at hpy; cases hpy
          · exact ⟨y, hy, hpy⟩
      · rw [List.filter_cons_of_neg hx]
        constructor
        · intro _
          exact ⟨x, by simp, by simpa using hx⟩
        · intro _
          have := List.length_filter_le p rest
          simp only [List.length_cons]
          omega

/-- Claim C9: `skipTask` and `deleteTask` are the same operation — for every
store and id they make the identical state change (removing exactly the rows
with that id) and return the same boolean, true exactly when a row existed. -/
theorem skipTask_eq_deleteTask :
    ∀ (s : Store) (id : Nat),
      skipTask s id = deleteTask s id ∧
        ((deleteTask s id).2 = true ↔ ∃ t ∈ s.tasks, t.id = id) := by
  intro s id
  refine ⟨rfl, ?_⟩
  simp only [deleteTask, decide_eq_true_eq]
  rw [filter_length_lt_iff]
  constructor
  · rintro ⟨x, hx, hpx⟩
    refine ⟨x, hx, ?_⟩
    simpa using hpx
  · rintro ⟨x, hx, hpx⟩
    refine ⟨x, hx, ?_⟩
    simpa using hpx

/-- Claim C10: completing an already-completed task is a no-op — the store is
unchanged (the UPDATE is guarded by `completed_at IS NULL`, so the original
completion timestamp survives) and the unchanged task is still returned. -/
theorem completeTask_already_completed (s : Store) (id : Nat) (now c : String) (t : Task)
    (hids : (s.tasks.map Task.id).Nodup)
    (hfind : getTaskById s id = some t)
    (hdone : t.completed_at = some c) :
    completeTask s id now = (s, some t) := by
  have hmem : t ∈ s.tasks := List.mem_of_find?_eq_some hfind
  have hid : t.id = id := by
    have := List.find?_some hfind
    simpa using this
  have hfix : ∀ x ∈ s.tasks,
      (if x.id = id ∧ x.completed_at = none
       then { x with completed_at := some now, updated_at := now }
       else x) = x := by
    intro x hx
    by_cases hc : x.id = id ∧ x.completed_at = none
    · exfalso
      have hx_eq_t : x = t :=
        List.inj_on_of_nodup_map hids hx hmem (by rw [hc.1, hid])
      rw [hx_eq_t, hdone] at hc
      cases hc.2
    · rw [if_neg hc]
  have hmap : s.tasks.map (fun x =>
      if x.id = id ∧ x.completed_at = none
      then { x with completed_at := some now, updated_at := now }
      else x) = s.tasks := map_id_of_mem _ _ hfix
  rw [completeTask]
  simp only [hmap]
  exact congrArg (fun r => (s, r)) hfind

/-- Witness for C10 at a concrete store holding one completed task. -/
theorem completeTask_already_completed_witness :
    completeTask
      { tasks := [{ id := 1, title := "w", description := none, due_date := none,
                    due_time := none, tags := none, project := none, priority := 0,
                    reminded_at := none, created_at := "t0", updated_at := "t1",
                    completed_at := some "t1", recurring_id := none }],
        templates := [], nextTaskId := 2 } 1 "t9"
    = ({ tasks := [{ id := 1, title := "w", description := none, due_date := none,
                     due_time := none, tags := none, project := none, priority := 0,
                     reminded_at := none, created_at := "t0", updated_at := "t1",
                     completed_at := some "t1", recurring_id := none }],
         templates := [], nextTaskId := 2 },
       some { id := 1, title := "w", description := none, due_date := none,
              due_time := none, tags := none, project := none, priority := 0,
              reminded_at := none, created_at := "t0", updated_at := "t1",
              completed_at := some "t1", recurring_id := none }) :=
  completeTask_already_completed _ 1 "t9" "t1" _ (by decide) (by decide) (by decide)

/-- A task carries a tag exactly when the tag is an element of its parsed
stored tag list (the semantics of utils.ts `hasTag` and of the JS
`tags.includes(...)` checks in tasks.ts). -/
def taskHasTag (t : Task) (tag : String) : Bool :=
  (parseTagsFromStorage t.tags).contains tag

theorem find?_id_map_update (l : List Task) (id : Nat) (f : Task → Task)
    (hf : ∀ t, (f t).id = t.id) :
    (l.map (fun t => if t.id = id then f t else t)).find? (fun t => t.id == id)
      = (l.find? (fun t => t.id == id)).map f := by
  induction l with
  | nil => rfl
  | cons x rest ih =>
      by_cases hx : x.id = id
      · have h1 : ((f x).id == id) = true := by simp [hf, hx]
        have h2 : (x.id == id) = true := by simp [hx]
        simp only [List.map_cons, if_pos hx, List.find?_cons, h1, h2]
        rfl
      · have h1 : (x.id == id) = false := by simp [hx]
        simp only [List.map_cons, if_neg hx, List.find?_cons, h1, ih]

theorem applyUndatedUpdate_found (s : Store) (id : Nat) (newStr now : String) (t0 : Task)
    (hfind : getTaskById s id = some t0) :
    (applyUndatedUpdate s id newStr now).2
      = some { t0 with due_date := none, due_time := none, tags := some newStr,
                       reminded_at := none, updated_at := now } := by
  have h := find?_id_map_update s.tasks id
    (fun t => { t with due_date := none, due_time := none, tags := some newStr,
                       reminded_at := none, updated_at := now })
    (fun t => rfl)
  rw [getTaskById] at hfind
  rw [applyUndatedUpdate]
  simp only [getTaskById]
  rw [h, hfind]
  rfl

theorem applyTagsUpdate_found (s : Store) (id : Nat) (newStr now : String) (t0 : Task)
    (hfind : getTaskById s id = some t0) :
    (applyTagsUpdate s id newStr now).2
      = some { t0 with tags := some newStr, updated_at := now } := by
  have h := find?_id_map_update s.tasks id
    (fun t => { t with tags := some newStr, updated_at := now })
    (fun t => rfl)
  rw [getTaskById] at hfind
  rw [applyTagsUpdate]
  simp only [getTaskById]
  rw [h, hfind]
  rfl

theorem parse_of_wellformed_append (base added : List String)
    (hc : ∀ p ∈ base ++ added, ',' ∉ p.data)
    (hn : ∀ p ∈ base ++ added, p.data ≠ []) :
    parseTagsFromStorage (some (formatTagsForStorage (base ++ added))) = base ++ added := by
  rw [parse_format _ hc]
  rw [List.filter_eq_self.mpr]
  intro a ha
  simpa using hn a ha

theorem move_tags_wellformed (o : Option String) (keep : String → Bool) (added : List String)
    (haddc : ∀ a ∈ added, ',' ∉ a.data) (haddn : ∀ a ∈ added, a.data ≠ []) :
    parseTagsFromStorage
        (some (formatTagsForStorage ((parseTagsFromStorage o).filter keep ++ added)))
      = (parseTagsFromStorage o).filter keep ++ added := by
  apply parse_of_wellformed_append
  · intro p hp
    rcases List.mem_append.mp hp with h | h
    · exact parse_pieces_comma_free o p (List.mem_of_mem_filter h)
    · exact haddc p h
  · intro p hp
    rcases List.mem_append.mp hp with h | h
    · exact parse_pieces_ne_nil o p (List.mem_of_mem_filter h)
    · exact haddn p h

theorem not_mem_filter_of_pred_false (l : List String) (x : String) (p : String → Bool)
    (hp : p x = false) : x ∉ l.filter p := by
  intro h
  have := List.of_mem_filter h
  rw [hp] at this
  cases this

/-- Claim C5: after `moveToSoon` the task carries `soon`, not `someday`, and
has no due date; after `moveToSomeday` the reverse; after `moveToInbox`
neither reserved tag and no due date — for every existing task id. -/
theorem move_ops_reserved_tags (s : Store) (id : Nat) (now : String) (t0 : Task)
    (hfind : getTaskById s id = some t0) :
    (∃ t1, (moveToSoon s id now).2 = some t1 ∧ taskHasTag t1 "soon" = true ∧
        taskHasTag t1 "someday" = false ∧ t1.due_date = none) ∧
    (∃ t2, (moveToSomeday s id now).2 = some t2 ∧ taskHasTag t2 "someday" = true ∧
        taskHasTag t2 "soon" = false ∧ t2.due_date = none) ∧
    (∃ t3, (moveToInbox s id now).2 = some t3 ∧ taskHasTag t3 "soon" = false ∧
        taskHasTag t3 "someday" = false ∧ t3.due_date = none) := by
  refine ⟨?_, ?_, ?_⟩
  · -- moveToSoon
    have hstep : moveToSoon s id now =
        applyUndatedUpdate s id
          (formatTagsForStorage
            (let tags0 := (parseTagsFromStorage t0.tags).filter (fun t => !(t == "someday"))
             if tags0.contains "soon" then tags0 else tags0 ++ ["soon"])) now := by
      rw [moveToSoon, hfind]
    set tags0 := (parseTagsFromStorage t0.tags).filter (fun t => !(t == "someday")) with htags0
    set tags1 := (if tags0.contains "soon" then tags0 else tags0 ++ ["soon"]) with htags1
    have hround : parseTagsFromStorage (some (formatTagsForStorage tags1)) = tags1 := by
      rw [htags1]
      split
      · have := move_tags_wellformed t0.tags (fun t => !(t == "someday")) [] (by simp) (by simp)
        simpa [htags0] using this
      · exact move_tags_wellformed t0.tags (fun t => !(t == "someday")) ["soon"]
          (by intro a ha; simp at ha; subst ha; decide)
          (by intro a ha; simp at ha; subst ha; decide)
    have hmem : "soon" ∈ tags1 := by
      rw [htags1]
      split
      · next hcont => exact List.elem_iff.mp hcont
      · exact List.mem_append_right _ (by simp)
    have hnot : "someday" ∉ tags1 := by
      have h0 : "someday" ∉ tags0 :=
        not_mem_filter_of_pred_false _ _ _ (by decide)
      rw [htags1]
      split
      · exact h0
      · intro h
        rcases List.mem_append.mp h with h | h
        · exact h0 h
        · simp at h
    refine ⟨_, by rw [hstep]; exact applyUndatedUpdate_found s id _ now t0 hfind, ?_, ?_, rfl⟩
    · rw [taskHasTag]
      simp only [hround]
      exact List.elem_iff.mpr hmem
    · rw [taskHasTag]
      simp only [hround]
      simp [List.elem_iff, hnot]
  · -- moveToSomeday
    have hstep : moveToSomeday s id now =
        applyUndatedUpdate s id
          (formatTagsForStorage
            (let tags0 := (parseTagsFromStorage t0.tags).filter (fun t => !(t == "soon"))
             if tags0.contains "someday" then tags0 else tags0 ++ ["someday"])) now := by
      rw [moveToSomeday, hfind]
    set tags0 := (parseTagsFromStorage t0.tags).filter (fun t => !(t == "soon")) with htags0
    set tags1 := (if tags0.contains "someday" then tags0 else tags0 ++ ["someday"]) with htags1
    have hround : parseTagsFromStorage (some (formatTagsForStorage tags1)) = tags1 := by
      rw [htags1]
      split
      · have := move_tags_wellformed t0.tags (fun t => !(t == "soon")) [] (by simp) (by simp)
        simpa [htags0] using this
      · exact move_tags_wellformed t0.tags (fun t => !(t == "soon")) ["someday"]
          (by intro a ha; simp at ha; subst ha; decide)
          (by intro a ha; simp at ha; subst ha; decide)
    have hmem : "someday" ∈ tags1 := by
      rw [htags1]
      split
      · next hcont => exact List.elem_iff.mp hcont
      · exact List.mem_append_right _ (by simp)
    have hnot : "soon" ∉ tags1 := by
      have h0 : "soon" ∉ tags0 :=
        not_mem_filter_of_pred_false _ _ _ (by decide)
      rw [htags1]
      split
      · exact h0
      · intro h
        rcases List.mem_append.mp h with h | h
        · exact h0 h
        · simp at h
    refine ⟨_, by rw [hstep]; exact applyUndatedUpdate_found s id _ now t0 hfind, ?_, ?_, rfl⟩
    · rw [taskHasTag]
      simp only [hround]
      exact List.elem_iff.mpr hmem
    · rw [taskHasTag]
      simp only [hround]
      simp [List.elem_iff, hnot]
  · -- moveToInbox
    have hstep : moveToInbox s id now =
        applyUndatedUpdate s id
          (formatTagsForStorage
            ((parseTagsFromStorage t0.tags).filter
              (fun t => !(t == "soon") && !(t == "someday")))) now := by
      rw [moveToInbox, hfind]
    set tags1 := (parseTagsFromStorage t0.tags).filter
      (fun t => !(t == "soon") && !(t == "someday")) with htags1
    have hround : parseTagsFromStorage (some (formatTagsForStorage tags1)) = tags1 := by
      have := move_tags_wellformed t0.tags (fun t => !(t == "soon") && !(t == "someday")) []
        (by simp) (by simp)
      simpa [htags1] using this
    have hnot1 : "soon" ∉ tags1 :=
      not_mem_filter_of_pred_false _ _ _ (by decide)
    have hnot2 : "someday" ∉ tags1 :=
      not_mem_filter_of_pred_false _ _ _ (by decide)
    refine ⟨_, by rw [hstep]; exact applyUndatedUpdate_found s id _ now t0 hfind, ?_, ?_, rfl⟩
    · rw [taskHasTag]
      simp only [hround]
      simp [List.elem_iff, hnot1]
    · rw [taskHasTag]
      simp only [hround]
      simp [List.elem_iff, hnot2]

/-- Witness for C5 at a concrete store holding one dated, tagged task. -/
theorem move_ops_reserved_tags_witness :
    (∃ t1, (moveToSoon
        { tasks := [{ id := 1, title := "w", description := none,
                      due_date := some ⟨2026, 10, 12⟩,
                      due_time := none, tags := some "someday,work", project := none,
                      priority := 0, reminded_at := none, created_at := "t0",
                      updated_at := "t0", completed_at := none, recurring_id := none }],
          templates := [], nextTaskId := 2 } 1 "t9").2 = some t1 ∧
        taskHasTag t1 "soon" = true ∧ taskHasTag t1 "someday" = false ∧
        t1.due_date = none) := by
  have h := move_ops_reserved_tags
    { tasks := [{ id := 1, title := "w", description := none,
                  due_date := some ⟨2026, 10, 12⟩,
                  due_time := none, tags := some "someday,work", project := none,
                  priority := 0, reminded_at := none, created_at := "t0",
                  updated_at := "t0", completed_at := none, recurring_id := none }],
      templates := [], nextTaskId := 2 } 1 "t9"
    { id := 1, title := "w", description := none,
      due_date := some ⟨2026, 10, 12⟩,
      due_time := none, tags := some "someday,work", project := none,
      priority := 0, reminded_at := none, created_at := "t0",
      updated_at := "t0", completed_at := none, recurring_id := none }
    (by decide)
  exact h.1

/-- The spec's stored-tag invariant: the parsed tag list of a tags column is
duplicate-free and every entry is already ASCII lower-case. -/
def tagsWellFormed (o : Option String) : Prop :=
  (parseTagsFromStorage o).Nodup ∧ ∀ x ∈ parseTagsFromStorage o, asciiLower x = x

instance tagsWellFormedDec (o : Option String) : Decidable (tagsWellFormed o) :=
  inferInstanceAs
    (Decidable ((parseTagsFromStorage o).Nodup ∧ ∀ x ∈ parseTagsFromStorage o, asciiLower x = x))

/-- Counterexample to claim C8: `createTask` stores the caller-supplied tag
list verbatim (`tags.join(",")`, no lower-casing, no deduplication), so the
invariant fails for the input `["A", "A"]`, which is stored as `"A,A"`. -/
theorem createTask_tags_counterexample :
    ¬ ∀ (s : Store) (input : CreateTaskInput) (now : String),
        tagsWellFormed ((createTask s input now).2).tags := by
  intro h
  have h2 := h ⟨[], [], 1⟩ { title := "x", tags := some ["A", "A"] } "t0"
  rw [tagsWellFormed] at h2
  revert h2
  decide

theorem asciiLower_idem (s : String) : asciiLower (asciiLower s) = asciiLower s := by
  rw [asciiLower, asciiLower]
  rw [show (String.mk (s.data.map asciiLowerChar)).data = s.data.map asciiLowerChar from rfl]
  rw [List.map_map]
  have hfun : asciiLowerChar ∘ asciiLowerChar = asciiLowerChar := by
    funext c
    exact asciiLowerChar_idem c
  rw [hfun]

theorem asciiLower_comma_free (a : String) (h : ',' ∉ a.data) : ',' ∉ (asciiLower a).data := by
  rw [asciiLower]
  intro hm
  rw [show (String.mk (a.data.map asciiLowerChar)).data = a.data.map asciiLowerChar from rfl]
    at hm
  rcases List.mem_map.mp hm with ⟨c, hc, hceq⟩
  by_cases hup : 65 ≤ c.toNat ∧ c.toNat ≤ 90
  · rw [asciiLowerChar, if_pos hup] at hceq
    have := congrArg Char.toNat hceq
    rw [toNat_ofNat_small (c.toNat + 32) (by omega)] at this
    have hcm : (',').toNat = 44 := by decide
    omega
  · rw [asciiLowerChar, if_neg hup] at hceq
    exact h (hceq ▸ hc)

theorem addTags_fold_wf (newTags : List String) :
    ∀ (init : List String), init.Nodup → (∀ x ∈ init, asciiLower x = x) →
      (∀ x ∈ init, ',' ∉ x.data) → (∀ x ∈ newTags, ',' ∉ x.data) →
      ((newTags.foldl (fun acc t =>
          if acc.contains (asciiLower t) then acc else acc ++ [asciiLower t]) init).Nodup ∧
        (∀ x ∈ newTags.foldl (fun acc t =>
          if acc.contains (asciiLower t) then acc else acc ++ [asciiLower t]) init,
          asciiLower x = x) ∧
        (∀ x ∈ newTags.foldl (fun acc t =>
          if acc.contains (asciiLower t) then acc else acc ++ [asciiLower t]) init,
          ',' ∉ x.data)) := by
  induction newTags with
  | nil => exact fun init h1 h2 h3 _ => ⟨h1, h2, h3⟩
  | cons t rest ih =>
      intro init h1 h2 h3 hnc
      rw [List.foldl_cons]
      by_cases hc : init.contains (asciiLower t)
      · rw [if_pos hc]
        exact ih init h1 h2 h3 (fun x hx => hnc x (List.mem_cons_of_mem t hx))
      · rw [if_neg hc]
        have hmem : asciiLower t ∉ init := fun hm => hc (List.elem_iff.mpr hm)
        refine ih (init ++ [asciiLower t]) ?_ ?_ ?_
          (fun x hx => hnc x (List.mem_cons_of_mem t hx))
        · rw [List.nodup_append]
          exact ⟨h1, List.nodup_singleton _, by
            intro a ha hb
            rw [List.mem_singleton] at hb
            exact hmem (hb ▸ ha)⟩
        · intro x hx
          rcases List.mem_append.mp hx with h | h
          · exact h2 x h
          · rw [List.mem_singleton] at h
            subst h
            exact asciiLower_idem t
        · intro x hx
          rcases List.mem_append.mp hx with h | h
          · exact h3 x h
          · rw [List.mem_singleton] at h
            subst h
            exact asciiLower_comma_free t (hnc t (by simp))

/-- Amended claim C8: `addTagsToTask` preserves the lowercase-and-unique
stored-tag invariant (it lower-cases each added tag and skips ones already
present), and `createTask` yields a well-formed tags column only when the
caller-supplied list is itself lower-case, duplicate-free and comma-free
(it stores the list verbatim); with no tags the column is NULL and the
invariant holds trivially. -/
theorem tags_invariant_amended :
    (∀ (s : Store) (input : CreateTaskInput) (now : String) (l : List String),
        input.tags = some l → l.Nodup → (∀ x ∈ l, asciiLower x = x) →
        (∀ x ∈ l, ',' ∉ x.data) →
        tagsWellFormed ((createTask s input now).2).tags) ∧
    (∀ (s : Store) (input : CreateTaskInput) (now : String),
        input.tags = none → tagsWellFormed ((createTask s input now).2).tags) ∧
    (∀ (s : Store) (id : Nat) (newTags : List String) (now : String) (t0 t1 : Task),
        getTaskById s id = some t0 → tagsWellFormed t0.tags →
        (∀ x ∈ newTags, ',' ∉ x.data) →
        (addTagsToTask s id newTags now).2 = some t1 →
        tagsWellFormed t1.tags) := by
  refine ⟨?_, ?_, ?_⟩
  · intro s input now l htags hnd hlc hcf
    rw [createTask]
    simp only [htags]
    rw [tagsWellFormed]
    rw [show Option.map formatTagsForStorage (some l) = some (formatTagsForStorage l) from rfl]
    rw [parse_format l hcf]
    constructor
    · exact hnd.filter _
    · intro x hx
      exact hlc x (List.mem_of_mem_filter hx)
  · intro s input now htags
    rw [createTask]
    simp only [htags]
    rw [tagsWellFormed]
    rw [show Option.map formatTagsForStorage none = (none : Option String) from rfl]
    exact ⟨List.nodup_nil, by intro x hx; simp [parseTagsFromStorage] at hx⟩
  · intro s id newTags now t0 t1 hfind hwf hnc hret
    have hfold := addTags_fold_wf newTags (parseTagsFromStorage t0.tags) hwf.1 hwf.2
      (parse_pieces_comma_free t0.tags) hnc
    rw [addTagsToTask, hfind] at hret
    rw [applyTagsUpdate_found s id _ now t0 hfind] at hret
    have ht1 : t1 = { t0 with
        tags := some (formatTagsForStorage (newTags.foldl (fun acc t =>
          if acc.contains (asciiLower t) then acc else acc ++ [asciiLower t])
          (parseTagsFromStorage t0.tags))),
        updated_at := now } := by
      exact (Option.some_inj.mp hret).symm
    rw [ht1]
    rw [tagsWellFormed]
    rw [parse_format _ hfold.2.2]
    constructor
    · exact hfold.1.filter _
    · intro x hx
      exact hfold.2.1 x (List.mem_of_mem_filter hx)

/-- Witness for the amended C8 at concrete inputs: a well-formed createTask
input and a concrete addTagsToTask call both keep the invariant. -/
theorem tags_invariant_amended_witness :
    tagsWellFormed
      ((createTask ⟨[], [], 1⟩ { title := "x", tags := some ["work", "home"] } "t0").2).tags ∧
    tagsWellFormed
      ((addTagsToTask
        { tasks := [{ id := 1, title := "w", description := none, due_date := none,
                      due_time := none, tags := some "work", project := none, priority := 0,
                      reminded_at := none, created_at := "t0", updated_at := "t0",
                      completed_at := none, recurring_id := none }],
          templates := [], nextTaskId := 2 } 1 ["Urgent"] "t1").2.getD
        { id := 0, title := "", description := none, due_date := none,
          due_time := none, tags := none, project := none, priority := 0,
          reminded_at := none, created_at := "", updated_at := "",
          completed_at := none, recurring_id := none }).tags := by
  constructor
  · exact tags_invariant_amended.1 _ _ _ ["work", "home"] rfl (by decide) (by decide) (by decide)
  · exact tags_invariant_amended.2.2
      { tasks := [{ id := 1, title := "w", description := none, due_date := none,
                    due_time := none, tags := some "work", project := none, priority := 0,
                    reminded_at := none, created_at := "t0", updated_at := "t0",
                    completed_at := none, recurring_id := none }],
        templates := [], nextTaskId := 2 } 1 ["Urgent"] "t1"
      { id := 1, title := "w", description := none, due_date := none,
        due_time := none, tags := some "work", project := none, priority := 0,
        reminded_at := none, created_at := "t0", updated_at := "t0",
        completed_at := none, recurring_id := none } _
      (by decide) (by decide) (by decide) (by decide)

theorem genStep_extends (tid : Nat) (tpl : Template) (now : String)
    (acc : Store × List Task × Option Date) (date : Date) :
    (∃ l, (genStep tid tpl now acc date).1.tasks = acc.1.tasks ++ l) ∧
      (genStep tid tpl now acc date).1.templates = acc.1.templates := by
  rw [genStep]
  split
  · exact ⟨⟨_, rfl⟩, rfl⟩
  · exact ⟨⟨[], by simp⟩, rfl⟩

theorem genFold_extends (tid : Nat) (tpl : Template) (now : String) :
    ∀ (dates : List Date) (acc : Store × List Task × Option Date),
      (∃ l, (dates.foldl (genStep tid tpl now) acc).1.tasks = acc.1.tasks ++ l) ∧
        (dates.foldl (genStep tid tpl now) acc).1.templates = acc.1.templates := by
  intro dates
  induction dates with
  | nil => exact fun acc => ⟨⟨[], by simp⟩, rfl⟩
  | cons d rest ih =>
      intro acc
      rw [List.foldl_cons]
      obtain ⟨⟨l2, hl2⟩, ht2⟩ := ih (genStep tid tpl now acc d)
      obtain ⟨⟨l1, hl1⟩, ht1⟩ := genStep_extends tid tpl now acc d
      exact ⟨⟨l1 ++ l2, by rw [hl2, hl1, List.append_assoc]⟩, by rw [ht2, ht1]⟩

theorem taskExists_congr (s1 s2 : Store) (tid : Nat) (d : Date)
    (h : s1.tasks = s2.tasks) :
    taskExistsForDate s1 tid d = taskExistsForDate s2 tid d := by
  rw [taskExistsForDate, taskExistsForDate, h]

theorem taskExists_mono (s1 s2 : Store) (tid : Nat) (d : Date) (l : List Task)
    (h : s2.tasks = s1.tasks ++ l) (he : taskExistsForDate s1 tid d = true) :
    taskExistsForDate s2 tid d = true := by
  rw [taskExistsForDate] at he ⊢
  rw [h, List.any_append, he]
  rfl

theorem genFold_covers (tid : Nat) (tpl : Template) (now : String) (htid : tpl.id = tid) :
    ∀ (dates : List Date) (acc : Store × List Task × Option Date) (d : Date),
      d ∈ dates → dateMatchesPattern d tpl = true →
      taskExistsForDate (dates.foldl (genStep tid tpl now) acc).1 tid d = true := by
  intro dates
  induction dates with
  | nil =>
      intro acc d hd
      cases hd
  | cons d0 rest ih =>
      intro acc d hd hm
      rw [List.foldl_cons]
      rcases List.mem_cons.mp hd with rfl | hd2
      · have hstep : taskExistsForDate (genStep tid tpl now acc d).1 tid d = true := by
          rw [genStep]
          by_cases hc : (dateMatchesPattern d tpl && !taskExistsForDate acc.1 tid d) = true
          · rw [if_pos hc]
            rw [taskExistsForDate]
            rw [show (createTaskFromTemplate acc.1 tpl d now).1.tasks
                  = acc.1.tasks ++ [(createTaskFromTemplate acc.1 tpl d now).2] from rfl]
            rw [List.any_append]
            have hrow : ((createTaskFromTemplate acc.1 tpl d now).2.recurring_id == some tid
                && (createTaskFromTemplate acc.1 tpl d now).2.due_date == some d) = true := by
              rw [show (createTaskFromTemplate acc.1 tpl d now).2.recurring_id
                    = some tpl.id from rfl, htid]
              rw [show (createTaskFromTemplate acc.1 tpl d now).2.due_date = some d from rfl]
              simp
            rw [show ([(createTaskFromTemplate acc.1 tpl d now).2].any (fun t =>
                  t.recurring_id == some tid && t.due_date == some d))
                = ((createTaskFromTemplate acc.1 tpl d now).2.recurring_id == some tid
                    && (createTaskFromTemplate acc.1 tpl d now).2.due_date == some d)
              from by simp]
            rw [hrow]
            simp
          · rw [if_neg hc]
            rw [hm] at hc
            simpa using hc
        obtain ⟨⟨l, hl⟩, _⟩ := genFold_extends tid tpl now rest (genStep tid tpl now acc d)
        exact taskExists_mono _ _ tid d l hl hstep
      · exact ih (genStep tid tpl now acc d0) d hd2 hm

theorem genFold_noop (tid : Nat) (tpl : Template) (now : String) :
    ∀ (dates : List Date) (st : Store) (created : List Task) (lastD : Option Date),
      (∀ d ∈ dates, dateMatchesPattern d tpl = true → taskExistsForDate st tid d = true) →
      dates.foldl (genStep tid tpl now) (st, created, lastD) = (st, created, lastD) := by
  intro dates
  induction dates with
  | nil =>
      intro st c l _
      rfl
  | cons d0 rest ih =>
      intro st c l h
      rw [List.foldl_cons]
      have hcond : (dateMatchesPattern d0 tpl && !taskExistsForDate st tid d0) = false := by
        by_cases hm : dateMatchesPattern d0 tpl = true
        · rw [hm, h d0 (by simp) hm]
          rfl
        · rw [Bool.not_eq_true] at hm
          rw [hm]
          rfl
      have hstep : genStep tid tpl now (st, c, l) d0 = (st, c, l) := by
        rw [genStep]
        rw [hcond]
        simp
      rw [hstep]
      exact ih st c l (fun d hd => h d (List.mem_cons_of_mem d0 hd))

theorem find?_tmpl_map_update (l : List Template) (id : Nat) (f : Template → Template)
    (hf : ∀ t, (f t).id = t.id) :
    (l.map (fun t => if t.id = id then f t else t)).find? (fun t => t.id == id)
      = (l.find? (fun t => t.id == id)).map f := by
  induction l with
  | nil => rfl
  | cons x rest ih =>
      by_cases hx : x.id = id
      · have h1 : ((f x).id == id) = true := by simp [hf, hx]
        have h2 : (x.id == id) = true := by simp [hx]
        simp only [List.map_cons, if_pos hx, List.find?_cons, h1, h2]
        rfl
      · have h1 : (x.id == id) = false := by simp [hx]
        simp only [List.map_cons, if_neg hx, List.find?_cons, h1, ih]

theorem getTemplateById_updateLastGenerated (s : Store) (tid : Nat) (d : Date) (now : String) :
    getTemplateById (updateLastGenerated s tid d now) tid
      = (getTemplateById s tid).map
          (fun t => { t with last_generated := some d, updated_at := now }) := by
  rw [getTemplateById, updateLastGenerated]
  exact find?_tmpl_map_update s.templates tid
    (fun t => { t with last_generated := some d, updated_at := now }) (fun t => rfl)

theorem matcher_ignores_marker (d : Date) (t : Template) (x : Option Date) (u : String) :
    dateMatchesPattern d { t with last_generated := x, updated_at := u }
      = dateMatchesPattern d t := rfl

theorem generate_eq_of_found (s : Store) (tid : Nat) (days : Nat) (todayD : Date) (now : String)
    (tpl : Template) (htpl : getTemplateById s tid = some tpl) (hen : ¬tpl.enabled = 0) :
    generateTasksForTemplate s tid days todayD now
      = (match ((genWindow todayD days).foldl (genStep tid tpl now) (s, [], none)).2.2 with
         | some d =>
            ⟨((genWindow todayD days).foldl (genStep tid tpl now) (s, [], none)).2.1,
              updateLastGenerated
                ((genWindow todayD days).foldl (genStep tid tpl now) (s, [], none)).1 tid d now⟩
         | none =>
            ⟨((genWindow todayD days).foldl (genStep tid tpl now) (s, [], none)).2.1,
              ((genWindow todayD days).foldl (genStep tid tpl now) (s, [], none)).1⟩) := by
  rw [generateTasksForTemplate, htpl]
  exact if_neg hen

/-- Claim C1: calling `generateTasksForTemplate` twice in a row with the same
arguments and no intervening change creates nothing on the second call — the
second call returns an empty list and the task count is unchanged.  Existence
is decided per (template, date) pair by `taskExistsForDate`, not by the
advisory `last_generated` marker. -/
theorem generate_idempotent (s : Store) (tid : Nat) (days : Nat) (todayD : Date)
    (n1 n2 : String) (tpl : Template)
    (htpl : getTemplateById s tid = some tpl) (hen : tpl.enabled ≠ 0) :
    (generateTasksForTemplate
        (generateTasksForTemplate s tid days todayD n1).store tid days todayD n2).created = []
      ∧ (generateTasksForTemplate
          (generateTasksForTemplate s tid days todayD n1).store tid days todayD n2).store.tasks.length
        = (generateTasksForTemplate s tid days todayD n1).store.tasks.length := by
  have htid : tpl.id = tid := by
    have := List.find?_some htpl
    simpa using this
  have hr1 := generate_eq_of_found s tid days todayD n1 tpl htpl hen
  set fold1 := ((genWindow todayD days).foldl (genStep tid tpl n1) (s, [], none)) with hfold1
  -- the first call's store has the fold's tasks and a template equal to tpl
  -- except possibly in the advisory marker fields
  have hstore_tasks : (generateTasksForTemplate s tid days todayD n1).store.tasks
      = fold1.1.tasks := by
    rw [hr1]
    cases h22 : fold1.2.2 with
    | none => rfl
    | some d => rfl
  have hstore_tpl : ∃ tpl2,
      getTemplateById (generateTasksForTemplate s tid days todayD n1).store tid = some tpl2
        ∧ tpl2.enabled = tpl.enabled
        ∧ ∀ d, dateMatchesPattern d tpl2 = dateMatchesPattern d tpl := by
    rw [hr1]
    have htmpls : fold1.1.templates = s.templates := (genFold_extends tid tpl n1 _ _).2
    cases h22 : fold1.2.2 with
    | none =>
        refine ⟨tpl, ?_, rfl, fun d => rfl⟩
        show getTemplateById fold1.1 tid = some tpl
        rw [getTemplateById, htmpls]
        exact htpl
    | some dd =>
        refine ⟨{ tpl with last_generated := some dd, updated_at := n1 }, ?_, rfl,
          fun d => matcher_ignores_marker d tpl (some dd) n1⟩
        show getTemplateById (updateLastGenerated fold1.1 tid dd n1) tid
          = some { tpl with last_generated := some dd, updated_at := n1 }
        rw [getTemplateById_updateLastGenerated]
        rw [show getTemplateById fold1.1 tid = some tpl from by
          rw [getTemplateById, htmpls]; exact htpl]
        rw [Option.map_some']
  obtain ⟨tpl2, hfind2, hen2, hmatch2⟩ := hstore_tpl
  have hcover : ∀ d ∈ genWindow todayD days, dateMatchesPattern d tpl2 = true →
      taskExistsForDate (generateTasksForTemplate s tid days todayD n1).store tid d = true := by
    intro d hd hm
    rw [hmatch2 d] at hm
    have h1 := genFold_covers tid tpl n1 htid (genWindow todayD days) (s, [], none) d hd hm
    rw [taskExists_congr _ fold1.1 tid d hstore_tasks]
    exact h1
  have hr2 := generate_eq_of_found (generateTasksForTemplate s tid days todayD n1).store tid
    days todayD n2 tpl2 hfind2 (by rw [hen2]; exact hen)
  have hnoop := genFold_noop tid tpl2 n2 (genWindow todayD days)
    (generateTasksForTemplate s tid days todayD n1).store [] none hcover
  rw [hr2, hnoop]
  exact ⟨rfl, rfl⟩

/-- Concrete fixture: an enabled daily template starting 2026-01-01. -/
def fixtureDailyTemplate : Template :=
  { id := 1
    title := "daily"
    description := none
    due_time := none
    tags := none
    project := none
    priority := 0
    recur_type := .daily
    recur_interval := 1
    recur_days := none
    recur_day_of_month := none
    start_date := ⟨2026, 1, 1⟩
    end_date := none
    last_generated := none
    enabled := 1
    created_at := "c"
    updated_at := "c" }

/-- Concrete fixture: an empty store holding the daily template. -/
def fixtureStore1 : Store :=
  { tasks := [], templates := [fixtureDailyTemplate], nextTaskId := 1 }

/-- Witness for C1 at a concrete store holding one enabled daily template. -/
theorem generate_idempotent_witness :
    (generateTasksForTemplate
        (generateTasksForTemplate fixtureStore1 1 3 ⟨2026, 1, 2⟩ "n1").store
        1 3 ⟨2026, 1, 2⟩ "n2").created = []
      ∧ (generateTasksForTemplate
          (generateTasksForTemplate fixtureStore1 1 3 ⟨2026, 1, 2⟩ "n1").store
          1 3 ⟨2026, 1, 2⟩ "n2").store.tasks.length
        = (generateTasksForTemplate fixtureStore1 1 3 ⟨2026, 1, 2⟩ "n1").store.tasks.length :=
  generate_idempotent fixtureStore1 1 3 ⟨2026, 1, 2⟩ "n1" "n2" fixtureDailyTemplate
    (by decide) (by decide)

/-- Two template rows that agree on every column except the advisory
`last_generated` marker. -/
def tmplSameExceptLG (a b : Template) : Prop :=
  { a with last_generated := none } = { b with last_generated := none }

theorem tmplSame_fields (a b : Template) (h : tmplSameExceptLG a b) :
    a.id = b.id ∧ a.title = b.title ∧ a.description = b.description ∧ a.due_time = b.due_time
      ∧ a.tags = b.tags ∧ a.project = b.project ∧ a.priority = b.priority
      ∧ a.recur_type = b.recur_type ∧ a.recur_interval = b.recur_interval
      ∧ a.recur_days = b.recur_days ∧ a.recur_day_of_month = b.recur_day_of_month
      ∧ a.start_date = b.start_date ∧ a.end_date = b.end_date
      ∧ a.enabled = b.enabled ∧ a.created_at = b.created_at ∧ a.updated_at = b.updated_at := by
  rw [tmplSameExceptLG] at h
  simpa using h

theorem matcher_congr (d : Date) (a b : Template) (h : tmplSameExceptLG a b) :
    dateMatchesPattern d a = dateMatchesPattern d b := by
  obtain ⟨e1, e2, e3, e4, e5, e6, e7, e8, e9, e10, e11, e12, e13, e14, e15, e16⟩ :=
    tmplSame_fields a b h
  simp only [dateMatchesPattern, monthlyTargetDay, e8, e9, e10, e11, e12, e13]

theorem templateRow_congr (n : Nat) (a b : Template) (h : tmplSameExceptLG a b)
    (date : Date) (now : String) :
    templateRow n a date now = templateRow n b date now := by
  obtain ⟨e1, e2, e3, e4, e5, e6, e7, e8, e9, e10, e11, e12, e13, e14, e15, e16⟩ :=
    tmplSame_fields a b h
  simp only [templateRow, e1, e2, e3, e4, e5, e6, e7]

theorem find?_forall2_rel (p : Template → Bool)
    (hp : ∀ a b, tmplSameExceptLG a b → p a = p b) :
    ∀ (l1 l2 : List Template), List.Forall₂ tmplSameExceptLG l1 l2 →
      (l1.find? p = none ∧ l2.find? p = none) ∨
        (∃ a b, l1.find? p = some a ∧ l2.find? p = some b ∧ tmplSameExceptLG a b) := by
  intro l1 l2 h
  induction h with
  | nil => exact Or.inl ⟨rfl, rfl⟩
  | cons hab hrest ih =>
      rename_i x y l1t l2t
      by_cases hx : p x = true
      · right
        refine ⟨x, y, ?_, ?_, hab⟩
        · rw [List.find?_cons, hx]
        · rw [List.find?_cons, ← hp x y hab, hx]
      · have hx2 : p x = false := by
          rw [Bool.not_eq_true] at hx
          exact hx
        have hy2 : p y = false := by rw [← hp x y hab]; exact hx2
        rw [List.find?_cons, hx2, List.find?_cons, hy2]
        exact ih

theorem genFold_congr (tid : Nat) (a b : Template) (h : tmplSameExceptLG a b) (now : String) :
    ∀ (dates : List Date) (st1 st2 : Store) (created : List Task) (lastD : Option Date),
      st1.tasks = st2.tasks → st1.nextTaskId = st2.nextTaskId →
      (dates.foldl (genStep tid a now) (st1, created, lastD)).2.1
        = (dates.foldl (genStep tid b now) (st2, created, lastD)).2.1 := by
  intro dates
  induction dates with
  | nil =>
      intro st1 st2 created lastD _ _
      rfl
  | cons d0 rest ih =>
      intro st1 st2 created lastD htasks hnext
      rw [List.foldl_cons, List.foldl_cons]
      have hm := matcher_congr d0 a b h
      have hex : taskExistsForDate st1 tid d0 = taskExistsForDate st2 tid d0 :=
        taskExists_congr _ _ _ _ htasks
      by_cases hc : (dateMatchesPattern d0 b && !taskExistsForDate st2 tid d0) = true
      · have hc1 : (dateMatchesPattern d0 a && !taskExistsForDate st1 tid d0) = true := by
          rw [hm, hex]
          exact hc
        rw [genStep, genStep, if_pos hc1, if_pos hc]
        have hrow : templateRow st1.nextTaskId a d0 now = templateRow st2.nextTaskId b d0 now := by
          rw [hnext]
          exact templateRow_congr _ a b h d0 now
        show (rest.foldl (genStep tid a now)
            ((createTaskFromTemplate st1 a d0 now).1,
              created ++ [templateRow st1.nextTaskId a d0 now], some d0)).2.1
          = (rest.foldl (genStep tid b now)
            ((createTaskFromTemplate st2 b d0 now).1,
              created ++ [templateRow st2.nextTaskId b d0 now], some d0)).2.1
        rw [hrow]
        apply ih
        · show st1.tasks ++ [templateRow st1.nextTaskId a d0 now]
            = st2.tasks ++ [templateRow st2.nextTaskId b d0 now]
          rw [htasks, hrow]
        · show st1.nextTaskId + 1 = st2.nextTaskId + 1
          rw [hnext]
      · have hc1 : ¬(dateMatchesPattern d0 a && !taskExistsForDate st1 tid d0) = true := by
          rw [hm, hex]
          exact hc
        rw [genStep, genStep, if_neg hc1, if_neg hc]
        exact ih st1 st2 created lastD htasks hnext

/-- Claim C7: the set of occurrences created by a generation call does not
depend on the templates' `last_generated` markers — for two stores with the
same tasks and id counter whose templates agree except possibly in
`last_generated`, generation creates exactly the same (template, date) pairs. -/
theorem generate_independent_of_marker (s1 s2 : Store) (tid : Nat) (days : Nat)
    (todayD : Date) (now : String)
    (htasks : s1.tasks = s2.tasks) (hnext : s1.nextTaskId = s2.nextTaskId)
    (htmpl : List.Forall₂ tmplSameExceptLG s1.templates s2.templates) :
    ((generateTasksForTemplate s1 tid days todayD now).created).map
        (fun t => (t.recurring_id, t.due_date))
      = ((generateTasksForTemplate s2 tid days todayD now).created).map
        (fun t => (t.recurring_id, t.due_date)) := by
  have hp : ∀ a b, tmplSameExceptLG a b → (a.id == tid) = (b.id == tid) := by
    intro a b hab
    rw [(tmplSame_fields a b hab).1]
  rcases find?_forall2_rel _ hp s1.templates s2.templates htmpl with
    ⟨hn1, hn2⟩ | ⟨a, b, hf1, hf2, hab⟩
  · rw [generateTasksForTemplate, generateTasksForTemplate]
    rw [show getTemplateById s1 tid = s1.templates.find? (fun t => t.id == tid) from rfl, hn1]
    rw [show getTemplateById s2 tid = s2.templates.find? (fun t => t.id == tid) from rfl, hn2]
  · have hen : a.enabled = b.enabled :=
      (tmplSame_fields a b hab).2.2.2.2.2.2.2.2.2.2.2.2.2.1
    by_cases hz : a.enabled = 0
    · have hz2 : b.enabled = 0 := hen ▸ hz
      have hres1 : generateTasksForTemplate s1 tid days todayD now = ⟨[], s1⟩ := by
        rw [generateTasksForTemplate]
        rw [show getTemplateById s1 tid
              = s1.templates.find? (fun t => t.id == tid) from rfl, hf1]
        exact if_pos hz
      have hres2 : generateTasksForTemplate s2 tid days todayD now = ⟨[], s2⟩ := by
        rw [generateTasksForTemplate]
        rw [show getTemplateById s2 tid
              = s2.templates.find? (fun t => t.id == tid) from rfl, hf2]
        exact if_pos hz2
      rw [hres1, hres2]
    · have hcr1 : (generateTasksForTemplate s1 tid days todayD now).created
          = ((genWindow todayD days).foldl (genStep tid a now) (s1, [], none)).2.1 := by
        rw [generate_eq_of_found s1 tid days todayD now a
          (by rw [getTemplateById]; exact hf1) hz]
        cases ((genWindow todayD days).foldl (genStep tid a now) (s1, [], none)).2.2 with
        | none => rfl
        | some d => rfl
      have hcr2 : (generateTasksForTemplate s2 tid days todayD now).created
          = ((genWindow todayD days).foldl (genStep tid b now) (s2, [], none)).2.1 := by
        rw [generate_eq_of_found s2 tid days todayD now b
          (by rw [getTemplateById]; exact hf2) (fun hh => hz (hen ▸ hh))]
        cases ((genWindow todayD days).foldl (genStep tid b now) (s2, [], none)).2.2 with
        | none => rfl
        | some d => rfl
      rw [hcr1, hcr2]
      rw [genFold_congr tid a b hab now (genWindow todayD days) s1 s2 [] none htasks hnext]

/-- Concrete fixture: the same store as `fixtureStore1` but with the advisory
marker set on the template. -/
def fixtureStore2 : Store :=
  { tasks := []
    templates := [{ fixtureDailyTemplate with last_generated := some ⟨2026, 1, 9⟩ }]
    nextTaskId := 1 }

/-- Witness for C7: two concrete stores differing only in the template's
`last_generated` marker yield the same created (template, date) pairs. -/
theorem generate_independent_of_marker_witness :
    ((generateTasksForTemplate fixtureStore1 1 2 ⟨2026, 1, 2⟩ "n").created).map
        (fun t => (t.recurring_id, t.due_date))
      = ((generateTasksForTemplate fixtureStore2 1 2 ⟨2026, 1, 2⟩ "n").created).map
        (fun t => (t.recurring_id, t.due_date)) :=
  generate_independent_of_marker fixtureStore1 fixtureStore2 1 2 ⟨2026, 1, 2⟩ "n" rfl rfl
    (List.Forall₂.cons rfl List.Forall₂.nil)

theorem matcher_bounds (d : Date) (tpl : Template) (h : dateMatchesPattern d tpl = true) :
    toDays tpl.start_date ≤ toDays d ∧ (∀ e ∈ tpl.end_date, toDays d ≤ toDays e) := by
  rw [dateMatchesPattern] at h
  by_cases h1 : toDays d < toDays tpl.start_date
  · rw [if_pos h1] at h
    cases h
  · rw [if_neg h1] at h
    refine ⟨by omega, ?_⟩
    intro e he
    have hsome : tpl.end_date = some e := he
    by_cases h2 : (match tpl.end_date with
                   | some e2 => decide (toDays e2 < toDays d)
                   | none => false) = true
    · rw [if_pos h2] at h
      cases h
    · rw [hsome] at h2
      simp only [decide_eq_true_eq] at h2
      omega

theorem genFold_created_origin (tid : Nat) (tpl : Template) (now : String) :
    ∀ (dates : List Date) (acc : Store × List Task × Option Date) (t : Task),
      t ∈ (dates.foldl (genStep tid tpl now) acc).2.1 →
      t ∈ acc.2.1 ∨ ∃ d ∈ dates, dateMatchesPattern d tpl = true ∧ t.due_date = some d := by
  intro dates
  induction dates with
  | nil =>
      intro acc t ht
      exact Or.inl ht
  | cons d0 rest ih =>
      intro acc t ht
      rw [List.foldl_cons] at ht
      rcases ih (genStep tid tpl now acc d0) t ht with h | ⟨d, hd, hmm, hdd⟩
      · rw [genStep] at h
        by_cases hc : (dateMatchesPattern d0 tpl && !taskExistsForDate acc.1 tid d0) = true
        · rw [if_pos hc] at h
          rcases List.mem_append.mp h with h2 | h2
          · exact Or.inl h2
          · rw [List.mem_singleton] at h2
            subst h2
            right
            refine ⟨d0, by simp, ?_, rfl⟩
            have := (Bool.and_eq_true _ _).mp hc
            exact this.1
        · rw [if_neg hc] at h
          exact Or.inl h
      · right
        exact ⟨d, List.mem_cons_of_mem d0 hd, hmm, hdd⟩

/-- Claim C4: every occurrence created by `generateTasksForTemplate` is dated
within `[start_date, min(end_date, horizon end)]`, where the scanned window is
today through today plus `days - 1`. -/
theorem generate_bounds (s : Store) (tid : Nat) (days : Nat) (todayD : Date) (now : String)
    (tpl : Template) (htpl : getTemplateById s tid = some tpl) (hv : todayD.validB = true) :
    ∀ t ∈ (generateTasksForTemplate s tid days todayD now).created,
      ∃ d, t.due_date = some d
        ∧ toDays tpl.start_date ≤ toDays d
        ∧ (∀ e ∈ tpl.end_date, toDays d ≤ toDays e)
        ∧ toDays todayD ≤ toDays d
        ∧ toDays d ≤ toDays todayD + (days : Int) - 1 := by
  intro t ht
  by_cases hz : tpl.enabled = 0
  · have hres : generateTasksForTemplate s tid days todayD now = ⟨[], s⟩ := by
      rw [generateTasksForTemplate, htpl]
      exact if_pos hz
    rw [hres] at ht
    cases ht
  · have hcr : (generateTasksForTemplate s tid days todayD now).created
        = ((genWindow todayD days).foldl (genStep tid tpl now) (s, [], none)).2.1 := by
      rw [generate_eq_of_found s tid days todayD now tpl htpl hz]
      cases ((genWindow todayD days).foldl (genStep tid tpl now) (s, [], none)).2.2 with
      | none => rfl
      | some d => rfl
    rw [hcr] at ht
    rcases genFold_created_origin tid tpl now (genWindow todayD days) (s, [], none) t ht with
      h | ⟨d, hd, hmm, hdd⟩
    · cases h
    · obtain ⟨hb1, hb2⟩ := matcher_bounds d tpl hmm
      rcases List.mem_map.mp hd with ⟨i, hi, hdi⟩
      rw [List.mem_range] at hi
      have hdays := toDays_addDaysN todayD hv i
      rw [hdi] at hdays
      exact ⟨d, hdd, hb1, hb2, by omega, by omega⟩

/-- Witness for C4: the first row created for the daily fixture over a
three-day window is dated within all four bounds. -/
theorem generate_bounds_witness :
    ∃ d, (templateRow 1 fixtureDailyTemplate ⟨2026, 1, 2⟩ "n").due_date = some d
      ∧ toDays fixtureDailyTemplate.start_date ≤ toDays d
      ∧ (∀ e ∈ fixtureDailyTemplate.end_date, toDays d ≤ toDays e)
      ∧ toDays ⟨2026, 1, 2⟩ ≤ toDays d
      ∧ toDays d ≤ toDays ⟨2026, 1, 2⟩ + (3 : Int) - 1 :=
  generate_bounds fixtureStore1 1 3 ⟨2026, 1, 2⟩ "n" fixtureDailyTemplate
    (by decide) (by decide) (templateRow 1 fixtureDailyTemplate ⟨2026, 1, 2⟩ "n") (by decide)

theorem monthlyTargetDay_eq (tpl : Template) (hdom : ∀ k ∈ tpl.recur_day_of_month, k ≠ 0) :
    monthlyTargetDay tpl = tpl.recur_day_of_month.getD tpl.start_date.day := by
  rw [monthlyTargetDay]
  cases h : tpl.recur_day_of_month with
  | none => rfl
  | some k =>
      show (if k = 0 then tpl.start_date.day else k) = (some k).getD tpl.start_date.day
      rw [if_neg (hdom k (show tpl.recur_day_of_month = some k from h))]
      rfl

/-- Claim C3: for a monthly template (with the 1-31 day-of-month invariant),
a date within the start/end bounds matches exactly when its day-of-month
equals `recur_day_of_month` (or the start date's day-of-month when unset) and,
when the interval exceeds 1, the signed month distance from the start date is
divisible by the interval; and a month shorter than the target day-of-month
contains no matching date at all — there is no end-of-month roll-forward. -/
theorem monthly_pattern (tpl : Template)
    (hty : tpl.recur_type = .monthly)
    (hdom : ∀ k ∈ tpl.recur_day_of_month, k ≠ 0) :
    (∀ d : Date,
      toDays tpl.start_date ≤ toDays d →
      (∀ e ∈ tpl.end_date, toDays d ≤ toDays e) →
      (dateMatchesPattern d tpl = true ↔
        (d.day = tpl.recur_day_of_month.getD tpl.start_date.day
          ∧ (1 < tpl.recur_interval →
              tpl.recur_interval ∣ monthsDiff tpl.start_date d))))
    ∧ (∀ d : Date, d.validB = true →
        daysInMonth d.year d.month < tpl.recur_day_of_month.getD tpl.start_date.day →
        dateMatchesPattern d tpl = false) := by
  have htarget := monthlyTargetDay_eq tpl hdom
  constructor
  · intro d hlo hhi
    rw [dateMatchesPattern]
    rw [if_neg (by omega : ¬toDays d < toDays tpl.start_date)]
    have hend : (match tpl.end_date with
                 | some e2 => decide (toDays e2 < toDays d)
                 | none => false) = false := by
      cases he : tpl.end_date with
      | none => rfl
      | some e =>
          have := hhi e (show tpl.end_date = some e from he)
          simp only [decide_eq_false_iff_not]
          omega
    rw [hend]
    simp only [Bool.false_eq_true, if_false]
    rw [hty]
    show (d.day == monthlyTargetDay tpl &&
        (decide (tpl.recur_interval ≤ 1) ||
          (monthsDiff tpl.start_date d).tmod tpl.recur_interval == 0)) = true ↔ _
    rw [Bool.and_eq_true, beq_iff_eq, Bool.or_eq_true, beq_iff_eq, decide_eq_true_eq,
      htarget]
    constructor
    · rintro ⟨h1, h2⟩
      refine ⟨h1, fun hgt => ?_⟩
      rcases h2 with h2 | h2
      · omega
      · exact Int.dvd_iff_tmod_eq_zero.mpr h2
    · rintro ⟨h1, h2⟩
      refine ⟨h1, ?_⟩
      by_cases hle : tpl.recur_interval ≤ 1
      · exact Or.inl hle
      · exact Or.inr (Int.dvd_iff_tmod_eq_zero.mp (h2 (by omega)))
  · intro d hvd hlt
    have hday : d.day ≤ daysInMonth d.year d.month := by
      simp only [Date.validB, Bool.and_eq_true, decide_eq_true_eq] at hvd
      exact hvd.2
    rw [dateMatchesPattern]
    by_cases h1 : toDays d < toDays tpl.start_date
    · rw [if_pos h1]
    · rw [if_neg h1]
      by_cases h2 : (match tpl.end_date with
                     | some e2 => decide (toDays e2 < toDays d)
                     | none => false) = true
      · rw [if_pos h2]
      · rw [if_neg h2]
        rw [hty]
        show (d.day == monthlyTargetDay tpl &&
            (decide (tpl.recur_interval ≤ 1) ||
              (monthsDiff tpl.start_date d).tmod tpl.recur_interval == 0)) = false
        have hne : (d.day == monthlyTargetDay tpl) = false := by
          rw [htarget]
          simp only [beq_eq_false_iff_ne, ne_eq]
          omega
        rw [hne]
        rfl

/-- Concrete fixture: an enabled monthly template targeting day 31. -/
def fixtureMonthly31 : Template :=
  { id := 2
    title := "monthly"
    description := none
    due_time := none
    tags := none
    project := none
    priority := 0
    recur_type := .monthly
    recur_interval := 1
    recur_days := none
    recur_day_of_month := some 31
    start_date := ⟨2026, 1, 31⟩
    end_date := none
    last_generated := none
    enabled := 1
    created_at := "c"
    updated_at := "c" }

/-- Witness for C3: 2026-03-31 matches the day-31 monthly template, and no day
of April 2026 (a 30-day month) can match. -/
theorem monthly_pattern_witness :
    (dateMatchesPattern ⟨2026, 3, 31⟩ fixtureMonthly31 = true ↔
      ((⟨2026, 3, 31⟩ : Date).day
          = fixtureMonthly31.recur_day_of_month.getD fixtureMonthly31.start_date.day
        ∧ (1 < fixtureMonthly31.recur_interval →
            fixtureMonthly31.recur_interval
              ∣ monthsDiff fixtureMonthly31.start_date ⟨2026, 3, 31⟩)))
    ∧ dateMatchesPattern ⟨2026, 4, 30⟩ fixtureMonthly31 = false := by
  have h := monthly_pattern fixtureMonthly31 (by decide) (by decide)
  exact ⟨h.1 ⟨2026, 3, 31⟩ (by decide) (by decide), h.2 ⟨2026, 4, 30⟩ (by decide) (by decide)⟩

/-- Membership of the dated family: the task appears in `getByDate d` for some
date `d` not strictly before today — the today bucket together with every
dated-future bucket. -/
def inDatedFamily (s : Store) (todayD : Date) (t : Task) : Prop :=
  ∃ d, dateLexLt d todayD = false ∧ t ∈ getByDate s d

/-- Every part of the claimed bucket-partition property except the
`getSoon`/`getSomeday` disjointness: each bucket contains only active tasks,
every active task is in some bucket, and every other pair of buckets is
disjoint. -/
def bucketsPartitionRest (s : Store) (todayD : Date) : Prop :=
  (∀ t ∈ activeTasks s,
      t ∈ getOverdue s todayD ∨ inDatedFamily s todayD t ∨ t ∈ getSoon s ∨ t ∈ getSomeday s
        ∨ t ∈ getInbox s)
  ∧ (∀ t ∈ getOverdue s todayD, t ∈ activeTasks s)
  ∧ (∀ (t : Task) (d : Date), t ∈ getByDate s d → t ∈ activeTasks s)
  ∧ (∀ t ∈ getSoon s, t ∈ activeTasks s)
  ∧ (∀ t ∈ getSomeday s, t ∈ activeTasks s)
  ∧ (∀ t ∈ getInbox s, t ∈ activeTasks s)
  ∧ (∀ t, ¬(t ∈ getOverdue s todayD ∧ inDatedFamily s todayD t))
  ∧ (∀ t, ¬(t ∈ getOverdue s todayD ∧ t ∈ getSoon s))
  ∧ (∀ t, ¬(t ∈ getOverdue s todayD ∧ t ∈ getSomeday s))
  ∧ (∀ t, ¬(t ∈ getOverdue s todayD ∧ t ∈ getInbox s))
  ∧ (∀ (t : Task) (d1 d2 : Date), d1 ≠ d2 → ¬(t ∈ getByDate s d1 ∧ t ∈ getByDate s d2))
  ∧ (∀ t, ¬(inDatedFamily s todayD t ∧ t ∈ getSoon s))
  ∧ (∀ t, ¬(inDatedFamily s todayD t ∧ t ∈ getSomeday s))
  ∧ (∀ t, ¬(inDatedFamily s todayD t ∧ t ∈ getInbox s))
  ∧ (∀ t, ¬(t ∈ getSoon s ∧ t ∈ getInbox s))
  ∧ (∀ t, ¬(t ∈ getSomeday s ∧ t ∈ getInbox s))

/-- The full partition property claimed for the bucket queries over a
snapshot: the above together with the `getSoon`/`getSomeday` disjointness. -/
def bucketsPartition (s : Store) (todayD : Date) : Prop :=
  bucketsPartitionRest s todayD ∧ (∀ t, ¬(t ∈ getSoon s ∧ t ∈ getSomeday s))

theorem mem_activeTasks (s : Store) (t : Task) :
    t ∈ activeTasks s ↔ t ∈ s.tasks ∧ t.completed_at = none := by
  simp [activeTasks, List.mem_filter]

theorem mem_getByDate (s : Store) (d : Date) (t : Task) :
    t ∈ getByDate s d ↔ t ∈ s.tasks ∧ t.due_date = some d ∧ t.completed_at = none := by
  simp [getByDate, List.mem_filter, and_assoc]

theorem mem_getOverdue (s : Store) (todayD : Date) (t : Task) :
    t ∈ getOverdue s todayD ↔
      t ∈ s.tasks ∧ (∃ dd, t.due_date = some dd ∧ dateLexLt dd todayD = true)
        ∧ t.completed_at = none := by
  rw [getOverdue, List.mem_filter]
  cases hdd : t.due_date with
  | none => simp [hdd]
  | some dd => simp [hdd, and_assoc]

theorem mem_getSoon (s : Store) (t : Task) :
    t ∈ getSoon s ↔ t ∈ s.tasks ∧ t.due_date = none ∧ t.completed_at = none
      ∧ sqlLike t.tags "soon" = true := by
  simp [getSoon, List.mem_filter, and_assoc]

theorem mem_getSomeday (s : Store) (t : Task) :
    t ∈ getSomeday s ↔ t ∈ s.tasks ∧ t.due_date = none ∧ t.completed_at = none
      ∧ sqlLike t.tags "someday" = true := by
  simp [getSomeday, List.mem_filter, and_assoc]

theorem mem_getInbox (s : Store) (t : Task) :
    t ∈ getInbox s ↔ t ∈ s.tasks ∧ t.due_date = none ∧ t.completed_at = none
      ∧ (t.tags = none ∨ (sqlLike t.tags "soon" = false ∧ sqlLike t.tags "someday" = false)) := by
  simp [getInbox, List.mem_filter, and_assoc]

/-- Concrete fixture: an active undated task whose tag string carries both
reserved tags at once. -/
def fixtureBothTags : Task :=
  { id := 1
    title := "both"
    description := none
    due_date := none
    due_time := none
    tags := some "soon,someday"
    project := none
    priority := 0
    reminded_at := none
    created_at := "t0"
    updated_at := "t0"
    completed_at := none
    recurring_id := none }

/-- Concrete fixture: a store holding only the doubly-tagged task. -/
def fixtureCexStore : Store :=
  { tasks := [fixtureBothTags], templates := [], nextTaskId := 2 }

/-- Counterexample to claim C2: the bucket queries are not pairwise disjoint
over every store snapshot — a task whose tags column is `"soon,someday"` is
returned by both `getSoon` and `getSomeday` (the queries use substring LIKE
matching on the comma-joined column). -/
theorem buckets_partition_counterexample :
    ¬ ∀ (s : Store) (todayD : Date), bucketsPartition s todayD := by
  intro h
  exact (h fixtureCexStore ⟨2026, 1, 1⟩).2 fixtureBothTags ⟨by decide, by decide⟩

theorem bucketsPartitionRest_holds (s : Store) (todayD : Date) :
    bucketsPartitionRest s todayD := by
  refine ⟨?_, ?_, ?_, ?_, ?_, ?_, ?_, ?_, ?_, ?_, ?_, ?_, ?_, ?_, ?_, ?_⟩
  · -- totality
    intro t ht
    rw [mem_activeTasks] at ht
    obtain ⟨hmem, hact⟩ := ht
    cases hdd : t.due_date with
    | some dd =>
        by_cases hlt : dateLexLt dd todayD = true
        · exact Or.inl ((mem_getOverdue s todayD t).mpr ⟨hmem, ⟨dd, hdd, hlt⟩, hact⟩)
        · refine Or.inr (Or.inl ⟨dd, ?_, (mem_getByDate s dd t).mpr ⟨hmem, hdd, hact⟩⟩)
          rw [Bool.not_eq_true] at hlt
          exact hlt
    | none =>
        by_cases hsoon : sqlLike t.tags "soon" = true
        · exact Or.inr (Or.inr (Or.inl ((mem_getSoon s t).mpr ⟨hmem, hdd, hact, hsoon⟩)))
        · by_cases hsd : sqlLike t.tags "someday" = true
          · exact Or.inr (Or.inr (Or.inr (Or.inl
              ((mem_getSomeday s t).mpr ⟨hmem, hdd, hact, hsd⟩))))
          · refine Or.inr (Or.inr (Or.inr (Or.inr
              ((mem_getInbox s t).mpr ⟨hmem, hdd, hact, Or.inr ⟨?_, ?_⟩⟩))))
            · rw [Bool.not_eq_true] at hsoon
              exact hsoon
            · rw [Bool.not_eq_true] at hsd
              exact hsd
  · intro t ht
    rw [mem_getOverdue] at ht
    exact (mem_activeTasks s t).mpr ⟨ht.1, ht.2.2⟩
  · intro t d ht
    rw [mem_getByDate] at ht
    exact (mem_activeTasks s t).mpr ⟨ht.1, ht.2.2⟩
  · intro t ht
    rw [mem_getSoon] at ht
    exact (mem_activeTasks s t).mpr ⟨ht.1, ht.2.2.1⟩
  · intro t ht
    rw [mem_getSomeday] at ht
    exact (mem_activeTasks s t).mpr ⟨ht.1, ht.2.2.1⟩
  · intro t ht
    rw [mem_getInbox] at ht
    exact (mem_activeTasks s t).mpr ⟨ht.1, ht.2.2.1⟩
  · rintro t ⟨h1, d, hd, h2⟩
    rw [mem_getOverdue] at h1
    rw [mem_getByDate] at h2
    obtain ⟨-, ⟨dd, hdd, hlt⟩, -⟩ := h1
    rw [h2.2.1] at hdd
    cases hdd
    rw [hlt] at hd
    cases hd
  · rintro t ⟨h1, h2⟩
    rw [mem_getOverdue] at h1
    rw [mem_getSoon] at h2
    obtain ⟨-, ⟨dd, hdd, -⟩, -⟩ := h1
    rw [h2.2.1] at hdd
    cases hdd
  · rintro t ⟨h1, h2⟩
    rw [mem_getOverdue] at h1
    rw [mem_getSomeday] at h2
    obtain ⟨-, ⟨dd, hdd, -⟩, -⟩ := h1
    rw [h2.2.1] at hdd
    cases hdd
  · rintro t ⟨h1, h2⟩
    rw [mem_getOverdue] at h1
    rw [mem_getInbox] at h2
    obtain ⟨-, ⟨dd, hdd, -⟩, -⟩ := h1
    rw [h2.2.1] at hdd
    cases hdd
  · rintro t d1 d2 hne ⟨h1, h2⟩
    rw [mem_getByDate] at h1 h2
    rw [h1.2.1] at h2
    exact hne (Option.some_inj.mp h2.2.1.symm).symm
  · rintro t ⟨⟨d, -, h1⟩, h2⟩
    rw [mem_getByDate] at h1
    rw [mem_getSoon] at h2
    rw [h2.2.1] at h1
    cases h1.2.1
  · rintro t ⟨⟨d, -, h1⟩, h2⟩
    rw [mem_getByDate] at h1
    rw [mem_getSomeday] at h2
    rw [h2.2.1] at h1
    cases h1.2.1
  · rintro t ⟨⟨d, -, h1⟩, h2⟩
    rw [mem_getByDate] at h1
    rw [mem_getInbox] at h2
    rw [h2.2.1] at h1
    cases h1.2.1
  · rintro t ⟨h1, h2⟩
    rw [mem_getSoon] at h1
    rw [mem_getInbox] at h2
    rcases h2.2.2.2 with htag | ⟨hs, -⟩
    · rw [htag] at h1
      cases h1.2.2.2
    · rw [h1.2.2.2] at hs
      cases hs
  · rintro t ⟨h1, h2⟩
    rw [mem_getSomeday] at h1
    rw [mem_getInbox] at h2
    rcases h2.2.2.2 with htag | ⟨-, hs⟩
    · rw [htag] at h1
      cases h1.2.2.2
    · rw [h1.2.2.2] at hs
      cases hs

/-- Amended claim C2: every part of the partition except the
`getSoon`/`getSomeday` disjointness holds over every snapshot — each bucket
contains only active tasks, every active task falls in at least one bucket,
and every other pair of buckets is disjoint; the full partition, including
the `getSoon`/`getSomeday` disjointness, holds over every snapshot in which
no active task's tags column contains both `soon` and `someday` as
(case-folded) substrings — the condition the `"soon,someday"` counterexample
forces. -/
theorem buckets_partition_amended :
    (∀ (s : Store) (todayD : Date), bucketsPartitionRest s todayD)
    ∧ (∀ (s : Store) (todayD : Date),
        (∀ t ∈ s.tasks, t.completed_at = none →
          ¬(sqlLike t.tags "soon" = true ∧ sqlLike t.tags "someday" = true)) →
        bucketsPartition s todayD) := by
  refine ⟨bucketsPartitionRest_holds, ?_⟩
  intro s todayD hnc
  refine ⟨bucketsPartitionRest_holds s todayD, ?_⟩
  rintro t ⟨h1, h2⟩
  rw [mem_getSoon] at h1
  rw [mem_getSomeday] at h2
  exact hnc t h1.1 h1.2.2.1 ⟨h1.2.2.2, h2.2.2.2⟩

/-- Concrete fixture: an overdue dated task. -/
def fixtureOverdueTask : Task :=
  { id := 2
    title := "late"
    description := none
    due_date := some ⟨2020, 1, 1⟩
    due_time := none
    tags := none
    project := none
    priority := 0
    reminded_at := none
    created_at := "t0"
    updated_at := "t0"
    completed_at := none
    recurring_id := none }

/-- Concrete fixture: an undated soon-tagged task. -/
def fixtureSoonTask : Task :=
  { id := 3
    title := "s"
    description := none
    due_date := none
    due_time := none
    tags := some "soon"
    project := none
    priority := 0
    reminded_at := none
    created_at := "t0"
    updated_at := "t0"
    completed_at := none
    recurring_id := none }

/-- Witness for the amended C2 at a concrete two-task store. -/
theorem buckets_partition_amended_witness :
    bucketsPartition
      { tasks := [fixtureOverdueTask, fixtureSoonTask], templates := [], nextTaskId := 4 }
      ⟨2026, 2, 15⟩ :=
  buckets_partition_amended.2 _ ⟨2026, 2, 15⟩ (by decide)

end TasksCli
